import Mathlib

/-!
Verification development for the GrandFishing simulation core
(src/src/main.cpp).  The simulation state, the packed 64-bit agent
record, the per-tick state machine, the sparse resource map and the
30-slot expiry ring buffer are embedded as executable Lean functions,
and the testable properties of the specification are settled against
them.  Machine words are modelled as `Nat` with explicit wrap-around
where the C++ unsigned arithmetic can overflow or underflow.
-/

namespace GrandFishing

/-! ### Compile-time constants (main.cpp, lines 13-19) -/

def WIDTH : Nat := 1000
def HEIGHT : Nat := 1000
def POSITION_BOUND : Nat := WIDTH * HEIGHT - 1
def WIN_FISH_COUNT : Nat := 10000

/-! ### Ship type and state enumerations (main.cpp, lines 22-41) -/

def GREEDY : Nat := 0
def LAZY : Nat := 1
def RESTLESS : Nat := 2

def FLOATING : Nat := 0
def FISHING : Nat := 1
def FINISHING : Nat := 2
def DEAD : Nat := 3

/-! ### Shift and mask constants for the packed record (main.cpp, lines 65-74) -/

def STATE_SHIFT : Nat := 2
def TIMER_SHIFT : Nat := 4
def FISH_SHIFT : Nat := 6
def POSITION_SHIFT : Nat := 20
def OFFSET_X_SHIFT : Nat := 54
def OFFSET_Y_SHIFT : Nat := 58
def MASK_2BIT : Nat := 0x3
def MASK_4BIT : Nat := 0xF
def MASK_14BIT : Nat := 0x3FFF
def MASK_34BIT : Nat := 0x3FFFFFFFF

/-- All ones in a 64-bit word; `~x` on a `uint64_t` is `M64 ^^^ x`. -/
def M64 : Nat := 2 ^ 64 - 1

/-- `setbits` (main.cpp, lines 88-93): clear the field `mask <<< shift`
inside `n`, then install `value` there (truncated to `mask`). -/
def setbits (n shift mask value : Nat) : Nat :=
  (n &&& (M64 ^^^ (mask <<< shift))) ||| ((value &&& mask) <<< shift)

/-- Field read as done throughout main.cpp: `(ship >> SHIFT) & MASK`. -/
def getbits (n shift mask : Nat) : Nat :=
  (n >>> shift) &&& mask

/-! ### Generic lemmas about `setbits` and `getbits` -/

theorem testBit_setbits (n s w v j : Nat) (hsw : s + w ≤ 64) :
    Nat.testBit (setbits n s (2 ^ w - 1) v) j =
      if s ≤ j ∧ j < s + w then Nat.testBit v (j - s)
      else (Nat.testBit n j && decide (j < 64)) := by
  simp only [setbits, Nat.testBit_or, Nat.testBit_and, Nat.testBit_xor,
    Nat.testBit_shiftLeft, Nat.testBit_two_pow_sub_one, M64]
  by_cases h1 : s ≤ j
  · by_cases h2 : j < s + w
    · have hw : j - s < w := by omega
      have h3 : j < 64 := by omega
      simp [h1, h2, h3, hw]
    · have hw : ¬ (j - s < w) := by omega
      by_cases h3 : j < 64 <;> simp [h1, h2, h3, hw]
  · have h0 : ¬ (s ≤ j ∧ j < s + w) := by omega
    by_cases h3 : j < 64 <;> simp [h1, h0, h3]

theorem getbits_setbits_self (n s w v : Nat) (hsw : s + w ≤ 64) :
    getbits (setbits n s (2 ^ w - 1) v) s (2 ^ w - 1) = v % 2 ^ w := by
  apply Nat.eq_of_testBit_eq
  intro i
  simp only [getbits, Nat.testBit_and, Nat.testBit_shiftRight,
    Nat.testBit_two_pow_sub_one, Nat.testBit_mod_two_pow]
  rw [testBit_setbits _ _ _ _ _ hsw]
  by_cases hi : i < w
  · have h1 : s ≤ s + i ∧ s + i < s + w := by omega
    simp [h1, hi]
  · have h1 : ¬ (s ≤ s + i ∧ s + i < s + w) := by omega
    simp [h1, hi]

theorem getbits_setbits_ne (n s w s2 w2 v : Nat) (hsw : s + w ≤ 64)
    (h64 : s2 + w2 ≤ 64) (hd : s + w ≤ s2 ∨ s2 + w2 ≤ s) :
    getbits (setbits n s (2 ^ w - 1) v) s2 (2 ^ w2 - 1) =
      getbits n s2 (2 ^ w2 - 1) := by
  apply Nat.eq_of_testBit_eq
  intro i
  simp only [getbits, Nat.testBit_and, Nat.testBit_shiftRight,
    Nat.testBit_two_pow_sub_one]
  rw [testBit_setbits _ _ _ _ _ hsw]
  by_cases hi : i < w2
  · have h1 : ¬ (s ≤ s2 + i ∧ s2 + i < s + w) := by omega
    have h2 : s2 + i < 64 := by omega
    simp [h1, hi, h2]
  · simp [hi]

theorem setbits_lt (n s w v : Nat) (hsw : s + w ≤ 64) :
    setbits n s (2 ^ w - 1) v < 2 ^ 64 := by
  have hmod : setbits n s (2 ^ w - 1) v % 2 ^ 64 = setbits n s (2 ^ w - 1) v := by
    apply Nat.eq_of_testBit_eq
    intro j
    rw [Nat.testBit_mod_two_pow, testBit_setbits _ _ _ _ _ hsw]
    by_cases hj : j < 64
    · simp [hj]
    · have h0 : ¬ (s ≤ j ∧ j < s + w) := by omega
      simp [hj, h0]
  calc setbits n s (2 ^ w - 1) v = setbits n s (2 ^ w - 1) v % 2 ^ 64 := hmod.symm
    _ < 2 ^ 64 := Nat.mod_lt _ (Nat.pos_pow_of_pos 64 (by omega))

/-! ### Convenient field accessors (read patterns used throughout main.cpp) -/

def typeOf (ship : Nat) : Nat := ship &&& MASK_2BIT
def stateOf (ship : Nat) : Nat := getbits ship STATE_SHIFT MASK_2BIT
def timerOf (ship : Nat) : Nat := getbits ship TIMER_SHIFT MASK_2BIT
def fishOf (ship : Nat) : Nat := getbits ship FISH_SHIFT MASK_14BIT
def positionOf (ship : Nat) : Nat := getbits ship POSITION_SHIFT MASK_34BIT
def offsetXRaw (ship : Nat) : Nat := getbits ship OFFSET_X_SHIFT MASK_4BIT
def offsetYRaw (ship : Nat) : Nat := getbits ship OFFSET_Y_SHIFT MASK_4BIT

/-- De-biased offset as the code computes it: raw 4-bit value minus 8. -/
def debias (raw : Nat) : Int := (raw : Int) - 8

/-- 64-bit wrapping subtraction, for the places where the C++ `uint64_t`
arithmetic can underflow (`shipPosition--` and the bottom-row wrap). -/
def sub64 (a b : Nat) : Nat := (a + (2 ^ 64 - b % 2 ^ 64)) % 2 ^ 64

/-- Ship initialization (main.cpp, lines 137-146): a fresh ship is
assembled by or-ing the drawn type, the FISHING state, the drawn timer
and the drawn position into a zero word; the offset fields stay zero. -/
def initShip (shipType shipTimer shipPosition : Nat) : Nat :=
  ((shipType ||| (FISHING <<< STATE_SHIFT)) ||| (shipTimer <<< TIMER_SHIFT)) |||
    (shipPosition <<< POSITION_SHIFT)

/-- The catch arithmetic shared verbatim by the two FISHING branches
(main.cpp, lines 335-340 and 355-360): returns the actual catch and the
cell amount after the catch. -/
def consumeCell (fishCatched cellFishCounter : Nat) : Nat × Nat :=
  if fishCatched > cellFishCounter then (cellFishCounter, 0)
  else (fishCatched, cellFishCounter - fishCatched)

/-- The mutable context a ship transition can touch besides its own
record: the active-cell map, the ring buffer and the live counter. -/
structure Env where
  cells : Nat → Option Nat
  timers : Fin 30 → List Nat
  alive : Int

/-- One ship's random draws for one tick; every `*Rng(rng)` call site in
the per-ship switch consults a distinct component, so any execution of
the C++ code corresponds to some choice of these values. -/
structure Draws where
  catchDraw : Nat
  fishDraw : Nat
  ttlDraw : Nat
  offXDraw : Nat
  offYDraw : Nat
  timerDraw : Nat

/-- FLOATING branch (main.cpp, lines 193-300). -/
def floatStep (timerDraw : Nat) (ship : Nat) : Nat :=
  let shipPosition := getbits ship POSITION_SHIFT MASK_34BIT
  let offsetX : Int := (getbits ship OFFSET_X_SHIFT MASK_4BIT : Int) - 8
  let offsetY : Int := (getbits ship OFFSET_Y_SHIFT MASK_4BIT : Int) - 8
  if offsetX = 0 ∧ offsetY = 0 then
    setbits (setbits ship STATE_SHIFT MASK_2BIT FISHING) TIMER_SHIFT MASK_2BIT timerDraw
  else if offsetX > 0 then
    let p1 := shipPosition + 1
    let p2 := if p1 > POSITION_BOUND then 0 else p1
    setbits (setbits ship OFFSET_X_SHIFT MASK_4BIT ((offsetX - 1) + 8).toNat)
      POSITION_SHIFT MASK_34BIT p2
  else if offsetX < 0 then
    let p1 := sub64 shipPosition 1
    let p2 := if p1 > POSITION_BOUND then POSITION_BOUND else p1
    setbits (setbits ship OFFSET_X_SHIFT MASK_4BIT ((offsetX + 1) + 8).toNat)
      POSITION_SHIFT MASK_34BIT p2
  else if offsetY > 0 then
    let p2 := if shipPosition < WIDTH then POSITION_BOUND - (WIDTH - shipPosition - 1)
      else shipPosition - WIDTH
    setbits (setbits ship OFFSET_Y_SHIFT MASK_4BIT ((offsetY - 1) + 8).toNat)
      POSITION_SHIFT MASK_34BIT p2
  else
    let p2 := if shipPosition + WIDTH > POSITION_BOUND
      then sub64 (sub64 WIDTH (sub64 POSITION_BOUND shipPosition)) 1
      else shipPosition + WIDTH
    setbits (setbits ship OFFSET_Y_SHIFT MASK_4BIT ((offsetY + 1) + 8).toNat)
      POSITION_SHIFT MASK_34BIT p2

/-- The type switch run after a non-winning catch (main.cpp, lines
382-423); `shipType` can only hold 0..3 and the C++ switch has no case
for 3, so that value leaves the ship unchanged. -/
def afterCatchShip (d : Draws) (shipType cellFishCounter ship2 : Nat) : Nat :=
  if shipType = GREEDY then
    if cellFishCounter = 0 then
      setbits (setbits (setbits ship2 OFFSET_X_SHIFT MASK_4BIT d.offXDraw)
        OFFSET_Y_SHIFT MASK_4BIT d.offYDraw) STATE_SHIFT MASK_2BIT FLOATING
    else
      setbits ship2 TIMER_SHIFT MASK_2BIT d.timerDraw
  else if shipType = LAZY then
    setbits ship2 TIMER_SHIFT MASK_2BIT d.timerDraw
  else if shipType = RESTLESS then
    setbits (setbits ship2 OFFSET_X_SHIFT MASK_4BIT (1 + 8))
      STATE_SHIFT MASK_2BIT FLOATING
  else ship2

/-- FISHING branch (main.cpp, lines 301-426).  The timer is a `uint8_t`,
so its decrement wraps modulo 256 before being masked back into the
2-bit field. -/
def fishStep (d : Draws) (tick : Nat) (env : Env) (ship : Nat) : Env × Nat :=
  let shipType := ship &&& MASK_2BIT
  let shipPosition := getbits ship POSITION_SHIFT MASK_34BIT
  let fishTimer := (getbits ship TIMER_SHIFT MASK_2BIT + 255) % 256
  let ship1 := setbits ship TIMER_SHIFT MASK_2BIT fishTimer
  if fishTimer > 0 then (env, ship1)
  else
    let fishCatched := d.catchDraw
    let r : Nat × Nat × (Nat → Option Nat) × (Fin 30 → List Nat) :=
      match env.cells shipPosition with
      | none =>
          let pr := consumeCell fishCatched d.fishDraw
          let cells2 := fun k => if k = shipPosition then some pr.2 else env.cells k
          let timerIdx : Fin 30 := ⟨(tick + d.ttlDraw) % 30, Nat.mod_lt _ (by omega)⟩
          let timers2 := fun j =>
            if j = timerIdx then env.timers j ++ [shipPosition] else env.timers j
          (pr.1, pr.2, cells2, timers2)
      | some stored =>
          let pr := consumeCell fishCatched stored
          let cells2 := fun k => if k = shipPosition then some pr.2 else env.cells k
          (pr.1, pr.2, cells2, env.timers)
    let actualCatch := r.1
    let cellFishCounter := r.2.1
    let shipFishCounter :=
      min (getbits ship1 FISH_SHIFT MASK_14BIT + actualCatch) WIN_FISH_COUNT
    let ship2 := setbits ship1 FISH_SHIFT MASK_14BIT shipFishCounter
    let ship3 :=
      if shipFishCounter = WIN_FISH_COUNT then
        setbits ship2 STATE_SHIFT MASK_2BIT FINISHING
      else afterCatchShip d shipType cellFishCounter ship2
    (⟨r.2.2.1, r.2.2.2, env.alive⟩, ship3)

/-- FINISHING branch (main.cpp, lines 427-450). -/
def finishStep (alive : Int) (ship : Nat) : Int × Nat :=
  let shipPosition := getbits ship POSITION_SHIFT MASK_34BIT
  let distanceLeft := WIDTH - (shipPosition % WIDTH + 1)
  if distanceLeft = 0 then
    (alive - 1, setbits ship STATE_SHIFT MASK_2BIT DEAD)
  else
    (alive, setbits ship POSITION_SHIFT MASK_34BIT (shipPosition + 1))

/-- The per-ship switch on the 2-bit state (main.cpp, lines 190-451).
The state field can only hold 0..3, so the final case is FINISHING. -/
def shipStep (d : Draws) (tick : Nat) (env : Env) (ship : Nat) : Env × Nat :=
  let shipState := getbits ship STATE_SHIFT MASK_2BIT
  if shipState = DEAD then (env, ship)
  else if shipState = FLOATING then (env, floatStep d.timerDraw ship)
  else if shipState = FISHING then fishStep d tick env ship
  else
    let r := finishStep env.alive ship
    (⟨env.cells, env.timers, r.1⟩, r.2)

/-- The per-tick loop over the ship array (main.cpp, lines 183-454):
ships are processed in order, each seeing the context updates of the
earlier-indexed ships of the same tick. -/
def processShips (o : Nat → Draws) (tick : Nat) : Nat → Env → List Nat → Env × List Nat
  | _, env, [] => (env, [])
  | i, env, ship :: rest =>
      let r := shipStep (o i) tick env ship
      let rr := processShips o tick (i + 1) r.1 rest
      (rr.1, r.2 :: rr.2)

/-- The whole simulation state. -/
structure SimState where
  ships : List Nat
  activeCells : Nat → Option Nat
  cellsTimers : Fin 30 → List Nat
  activeShips : Int
  tick : Nat

/-- `activeCells.erase(cellIdx)` on the map modelled as a function. -/
def eraseCell (cells : Nat → Option Nat) (k : Nat) : Nat → Option Nat :=
  fun c => if c = k then none else cells c

/-- One full simulation tick (main.cpp, lines 171-457): drain the ring
slot due this tick, erase its cells from the map, clear the slot, then
process every ship once, then advance the tick counter. -/
def tickStep (o : Nat → Draws) (s : SimState) : SimState :=
  let expIdx : Fin 30 := ⟨s.tick % 30, Nat.mod_lt _ (by omega)⟩
  let cells1 := (s.cellsTimers expIdx).foldl eraseCell s.activeCells
  let timers1 := fun j => if j = expIdx then ([] : List Nat) else s.cellsTimers j
  let r := processShips o s.tick 0 ⟨cells1, timers1, s.activeShips⟩ s.ships
  ⟨r.2, r.1.cells, r.1.timers, r.1.alive, s.tick + 1⟩

/-- Iterated ticks; step `n` uses the oracle family at index `n`. -/
def iterN (O : Nat → Nat → Draws) : Nat → SimState → SimState
  | 0, s => s
  | n + 1, s => tickStep (O n) (iterN O n s)

/-- The state right before the first tick (main.cpp, lines 108-150):
empty active-cell map, thirty empty ring slots, tick counter 1. -/
def initialState (ships : List Nat) (alive : Int) : SimState :=
  ⟨ships, fun _ => none, fun _ => [], alive, 1⟩

/-- Number of outstanding ring-buffer entries for cell `c` across all
thirty slots. -/
def occ (timers : Fin 30 → List Nat) (c : Nat) : Nat :=
  ∑ j : Fin 30, (timers j).count c

/-- Relation between the map and the ring buffer maintained by the
simulation: a cell is in the map exactly when one entry for it is
outstanding, and never more than one. -/
def Inv (cells : Nat → Option Nat) (timers : Fin 30 → List Nat) : Prop :=
  ∀ c, occ timers c = if (cells c).isSome then 1 else 0

/-! ### Read-of-write lemmas for each pair of packed fields -/

@[simp] theorem typeOf_set_state (n v : Nat) :
    typeOf (setbits n STATE_SHIFT MASK_2BIT v) = typeOf n :=
  getbits_setbits_ne n 2 2 0 2 v (by norm_num) (by norm_num) (by norm_num)

@[simp] theorem typeOf_set_timer (n v : Nat) :
    typeOf (setbits n TIMER_SHIFT MASK_2BIT v) = typeOf n :=
  getbits_setbits_ne n 4 2 0 2 v (by norm_num) (by norm_num) (by norm_num)

@[simp] theorem typeOf_set_fish (n v : Nat) :
    typeOf (setbits n FISH_SHIFT MASK_14BIT v) = typeOf n :=
  getbits_setbits_ne n 6 14 0 2 v (by norm_num) (by norm_num) (by norm_num)

@[simp] theorem typeOf_set_pos (n v : Nat) :
    typeOf (setbits n POSITION_SHIFT MASK_34BIT v) = typeOf n :=
  getbits_setbits_ne n 20 34 0 2 v (by norm_num) (by norm_num) (by norm_num)

@[simp] theorem typeOf_set_x (n v : Nat) :
    typeOf (setbits n OFFSET_X_SHIFT MASK_4BIT v) = typeOf n :=
  getbits_setbits_ne n 54 4 0 2 v (by norm_num) (by norm_num) (by norm_num)

@[simp] theorem typeOf_set_y (n v : Nat) :
    typeOf (setbits n OFFSET_Y_SHIFT MASK_4BIT v) = typeOf n :=
  getbits_setbits_ne n 58 4 0 2 v (by norm_num) (by norm_num) (by norm_num)

@[simp] theorem stateOf_set_state (n v : Nat) :
    stateOf (setbits n STATE_SHIFT MASK_2BIT v) = v % 2 ^ 2 :=
  getbits_setbits_self n 2 2 v (by norm_num)

@[simp] theorem stateOf_set_timer (n v : Nat) :
    stateOf (setbits n TIMER_SHIFT MASK_2BIT v) = stateOf n :=
  getbits_setbits_ne n 4 2 2 2 v (by norm_num) (by norm_num) (by norm_num)

@[simp] theorem stateOf_set_fish (n v : Nat) :
    stateOf (setbits n FISH_SHIFT MASK_14BIT v) = stateOf n :=
  getbits_setbits_ne n 6 14 2 2 v (by norm_num) (by norm_num) (by norm_num)

@[simp] theorem stateOf_set_pos (n v : Nat) :
    stateOf (setbits n POSITION_SHIFT MASK_34BIT v) = stateOf n :=
  getbits_setbits_ne n 20 34 2 2 v (by norm_num) (by norm_num) (by norm_num)

@[simp] theorem stateOf_set_x (n v : Nat) :
    stateOf (setbits n OFFSET_X_SHIFT MASK_4BIT v) = stateOf n :=
  getbits_setbits_ne n 54 4 2 2 v (by norm_num) (by norm_num) (by norm_num)

@[simp] theorem stateOf_set_y (n v : Nat) :
    stateOf (setbits n OFFSET_Y_SHIFT MASK_4BIT v) = stateOf n :=
  getbits_setbits_ne n 58 4 2 2 v (by norm_num) (by norm_num) (by norm_num)

@[simp] theorem timerOf_set_state (n v : Nat) :
    timerOf (setbits n STATE_SHIFT MASK_2BIT v) = timerOf n :=
  getbits_setbits_ne n 2 2 4 2 v (by norm_num) (by norm_num) (by norm_num)

@[simp] theorem timerOf_set_timer (n v : Nat) :
    timerOf (setbits n TIMER_SHIFT MASK_2BIT v) = v % 2 ^ 2 :=
  getbits_setbits_self n 4 2 v (by norm_num)

@[simp] theorem timerOf_set_fish (n v : Nat) :
    timerOf (setbits n FISH_SHIFT MASK_14BIT v) = timerOf n :=
  getbits_setbits_ne n 6 14 4 2 v (by norm_num) (by norm_num) (by norm_num)

@[simp] theorem timerOf_set_pos (n v : Nat) :
    timerOf (setbits n POSITION_SHIFT MASK_34BIT v) = timerOf n :=
  getbits_setbits_ne n 20 34 4 2 v (by norm_num) (by norm_num) (by norm_num)

@[simp] theorem timerOf_set_x (n v : Nat) :
    timerOf (setbits n OFFSET_X_SHIFT MASK_4BIT v) = timerOf n :=
  getbits_setbits_ne n 54 4 4 2 v (by norm_num) (by norm_num) (by norm_num)

@[simp] theorem timerOf_set_y (n v : Nat) :
    timerOf (setbits n OFFSET_Y_SHIFT MASK_4BIT v) = timerOf n :=
  getbits_setbits_ne n 58 4 4 2 v (by norm_num) (by norm_num) (by norm_num)

@[simp] theorem fishOf_set_state (n v : Nat) :
    fishOf (setbits n STATE_SHIFT MASK_2BIT v) = fishOf n :=
  getbits_setbits_ne n 2 2 6 14 v (by norm_num) (by norm_num) (by norm_num)

@[simp] theorem fishOf_set_timer (n v : Nat) :
    fishOf (setbits n TIMER_SHIFT MASK_2BIT v) = fishOf n :=
  getbits_setbits_ne n 4 2 6 14 v (by norm_num) (by norm_num) (by norm_num)

@[simp] theorem fishOf_set_fish (n v : Nat) :
    fishOf (setbits n FISH_SHIFT MASK_14BIT v) = v % 2 ^ 14 :=
  getbits_setbits_self n 6 14 v (by norm_num)

@[simp] theorem fishOf_set_pos (n v : Nat) :
    fishOf (setbits n POSITION_SHIFT MASK_34BIT v) = fishOf n :=
  getbits_setbits_ne n 20 34 6 14 v (by norm_num) (by norm_num) (by norm_num)

@[simp] theorem fishOf_set_x (n v : Nat) :
    fishOf (setbits n OFFSET_X_SHIFT MASK_4BIT v) = fishOf n :=
  getbits_setbits_ne n 54 4 6 14 v (by norm_num) (by norm_num) (by norm_num)

@[simp] theorem fishOf_set_y (n v : Nat) :
    fishOf (setbits n OFFSET_Y_SHIFT MASK_4BIT v) = fishOf n :=
  getbits_setbits_ne n 58 4 6 14 v (by norm_num) (by norm_num) (by norm_num)

@[simp] theorem positionOf_set_state (n v : Nat) :
    positionOf (setbits n STATE_SHIFT MASK_2BIT v) = positionOf n :=
  getbits_setbits_ne n 2 2 20 34 v (by norm_num) (by norm_num) (by norm_num)

@[simp] theorem positionOf_set_timer (n v : Nat) :
    positionOf (setbits n TIMER_SHIFT MASK_2BIT v) = positionOf n :=
  getbits_setbits_ne n 4 2 20 34 v (by norm_num) (by norm_num) (by norm_num)

@[simp] theorem positionOf_set_fish (n v : Nat) :
    positionOf (setbits n FISH_SHIFT MASK_14BIT v) = positionOf n :=
  getbits_setbits_ne n 6 14 20 34 v (by norm_num) (by norm_num) (by norm_num)

@[simp] theorem positionOf_set_pos (n v : Nat) :
    positionOf (setbits n POSITION_SHIFT MASK_34BIT v) = v % 2 ^ 34 :=
  getbits_setbits_self n 20 34 v (by norm_num)

@[simp] theorem positionOf_set_x (n v : Nat) :
    positionOf (setbits n OFFSET_X_SHIFT MASK_4BIT v) = positionOf n :=
  getbits_setbits_ne n 54 4 20 34 v (by norm_num) (by norm_num) (by norm_num)

@[simp] theorem positionOf_set_y (n v : Nat) :
    positionOf (setbits n OFFSET_Y_SHIFT MASK_4BIT v) = positionOf n :=
  getbits_setbits_ne n 58 4 20 34 v (by norm_num) (by norm_num) (by norm_num)

@[simp] theorem offsetXRaw_set_state (n v : Nat) :
    offsetXRaw (setbits n STATE_SHIFT MASK_2BIT v) = offsetXRaw n :=
  getbits_setbits_ne n 2 2 54 4 v (by norm_num) (by norm_num) (by norm_num)

@[simp] theorem offsetXRaw_set_timer (n v : Nat) :
    offsetXRaw (setbits n TIMER_SHIFT MASK_2BIT v) = offsetXRaw n :=
  getbits_setbits_ne n 4 2 54 4 v (by norm_num) (by norm_num) (by norm_num)

@[simp] theorem offsetXRaw_set_fish (n v : Nat) :
    offsetXRaw (setbits n FISH_SHIFT MASK_14BIT v) = offsetXRaw n :=
  getbits_setbits_ne n 6 14 54 4 v (by norm_num) (by norm_num) (by norm_num)

@[simp] theorem offsetXRaw_set_pos (n v : Nat) :
    offsetXRaw (setbits n POSITION_SHIFT MASK_34BIT v) = offsetXRaw n :=
  getbits_setbits_ne n 20 34 54 4 v (by norm_num) (by norm_num) (by norm_num)

@[simp] theorem offsetXRaw_set_x (n v : Nat) :
    offsetXRaw (setbits n OFFSET_X_SHIFT MASK_4BIT v) = v % 2 ^ 4 :=
  getbits_setbits_self n 54 4 v (by norm_num)

@[simp] theorem offsetXRaw_set_y (n v : Nat) :
    offsetXRaw (setbits n OFFSET_Y_SHIFT MASK_4BIT v) = offsetXRaw n :=
  getbits_setbits_ne n 58 4 54 4 v (by norm_num) (by norm_num) (by norm_num)

@[simp] theorem offsetYRaw_set_state (n v : Nat) :
    offsetYRaw (setbits n STATE_SHIFT MASK_2BIT v) = offsetYRaw n :=
  getbits_setbits_ne n 2 2 58 4 v (by norm_num) (by norm_num) (by norm_num)

@[simp] theorem offsetYRaw_set_timer (n v : Nat) :
    offsetYRaw (setbits n TIMER_SHIFT MASK_2BIT v) = offsetYRaw n :=
  getbits_setbits_ne n 4 2 58 4 v (by norm_num) (by norm_num) (by norm_num)

@[simp] theorem offsetYRaw_set_fish (n v : Nat) :
    offsetYRaw (setbits n FISH_SHIFT MASK_14BIT v) = offsetYRaw n :=
  getbits_setbits_ne n 6 14 58 4 v (by norm_num) (by norm_num) (by norm_num)

@[simp] theorem offsetYRaw_set_pos (n v : Nat) :
    offsetYRaw (setbits n POSITION_SHIFT MASK_34BIT v) = offsetYRaw n :=
  getbits_setbits_ne n 20 34 58 4 v (by norm_num) (by norm_num) (by norm_num)

@[simp] theorem offsetYRaw_set_x (n v : Nat) :
    offsetYRaw (setbits n OFFSET_X_SHIFT MASK_4BIT v) = offsetYRaw n :=
  getbits_setbits_ne n 54 4 58 4 v (by norm_num) (by norm_num) (by norm_num)

@[simp] theorem offsetYRaw_set_y (n v : Nat) :
    offsetYRaw (setbits n OFFSET_Y_SHIFT MASK_4BIT v) = v % 2 ^ 4 :=
  getbits_setbits_self n 58 4 v (by norm_num)

@[simp] theorem typeOf_set_type (n v : Nat) :
    typeOf (setbits n 0 MASK_2BIT v) = v % 2 ^ 2 :=
  getbits_setbits_self n 0 2 v (by norm_num)

@[simp] theorem stateOf_set_type (n v : Nat) :
    stateOf (setbits n 0 MASK_2BIT v) = stateOf n :=
  getbits_setbits_ne n 0 2 2 2 v (by norm_num) (by norm_num) (by norm_num)

@[simp] theorem timerOf_set_type (n v : Nat) :
    timerOf (setbits n 0 MASK_2BIT v) = timerOf n :=
  getbits_setbits_ne n 0 2 4 2 v (by norm_num) (by norm_num) (by norm_num)

@[simp] theorem fishOf_set_type (n v : Nat) :
    fishOf (setbits n 0 MASK_2BIT v) = fishOf n :=
  getbits_setbits_ne n 0 2 6 14 v (by norm_num) (by norm_num) (by norm_num)

@[simp] theorem positionOf_set_type (n v : Nat) :
    positionOf (setbits n 0 MASK_2BIT v) = positionOf n :=
  getbits_setbits_ne n 0 2 20 34 v (by norm_num) (by norm_num) (by norm_num)

@[simp] theorem offsetXRaw_set_type (n v : Nat) :
    offsetXRaw (setbits n 0 MASK_2BIT v) = offsetXRaw n :=
  getbits_setbits_ne n 0 2 54 4 v (by norm_num) (by norm_num) (by norm_num)

@[simp] theorem offsetYRaw_set_type (n v : Nat) :
    offsetYRaw (setbits n 0 MASK_2BIT v) = offsetYRaw n :=
  getbits_setbits_ne n 0 2 58 4 v (by norm_num) (by norm_num) (by norm_num)

/-- The or-assembled fresh ship equals a `setbits` chain writing the
four nonzero fields into the zero word, provided the drawn values fit
their fields (which the distributions guarantee). -/
theorem initShip_eq (ty tm pos : Nat) (hty : ty < 2 ^ 2) (htm : tm < 2 ^ 2)
    (hpos : pos < 2 ^ 34) :
    initShip ty tm pos =
      setbits (setbits (setbits (setbits 0 0 MASK_2BIT ty) STATE_SHIFT MASK_2BIT FISHING)
        TIMER_SHIFT MASK_2BIT tm) POSITION_SHIFT MASK_34BIT pos := by
  apply Nat.eq_of_testBit_eq
  intro j
  simp only [show MASK_2BIT = 2 ^ 2 - 1 from rfl, show MASK_34BIT = 2 ^ 34 - 1 from rfl]
  rw [testBit_setbits _ _ _ _ _ (show POSITION_SHIFT + 34 ≤ 64 by decide),
    testBit_setbits _ _ _ _ _ (show TIMER_SHIFT + 2 ≤ 64 by decide),
    testBit_setbits _ _ _ _ _ (show STATE_SHIFT + 2 ≤ 64 by decide),
    testBit_setbits _ _ _ _ _ (show 0 + 2 ≤ 64 by decide)]
  simp only [initShip, Nat.testBit_or, Nat.testBit_shiftLeft,
    STATE_SHIFT, TIMER_SHIFT, POSITION_SHIFT, FISHING, Nat.zero_testBit]
  have hbit : ∀ (x k i : Nat), x < 2 ^ k → k ≤ i → x.testBit i = false := by
    intro x k i hx hk
    exact Nat.testBit_lt_two_pow
      (lt_of_lt_of_le hx (Nat.pow_le_pow_right (by omega) hk))
  by_cases h2 : j < 2
  · have e1 : ¬ (2 : Nat) ≤ j := by omega
    have e2 : ¬ (4 : Nat) ≤ j := by omega
    have e3 : ¬ (20 : Nat) ≤ j := by omega
    simp [e1, e2, e3, h2]
    omega
  · by_cases h4 : j < 4
    · have e1 : (2 : Nat) ≤ j := by omega
      have e2 : ¬ (4 : Nat) ≤ j := by omega
      have e3 : ¬ (20 : Nat) ≤ j := by omega
      have ety := hbit ty 2 j hty (by omega)
      simp [e1, e2, e3, ety, h2, h4]
      omega
    · by_cases h6 : j < 6
      · have e1 : (2 : Nat) ≤ j := by omega
        have e2 : (4 : Nat) ≤ j := by omega
        have e3 : ¬ (20 : Nat) ≤ j := by omega
        have ety := hbit ty 2 j hty (by omega)
        have e1b := hbit 1 2 (j - 2) (by norm_num) (by omega)
        simp [e1, e2, e3, ety, e1b, h2, h4, h6]
        omega
      · by_cases h20 : j < 20
        · have e1 : (2 : Nat) ≤ j := by omega
          have e2 : (4 : Nat) ≤ j := by omega
          have e3 : ¬ (20 : Nat) ≤ j := by omega
          have ety := hbit ty 2 j hty (by omega)
          have e1b := hbit 1 2 (j - 2) (by norm_num) (by omega)
          have etm := hbit tm 2 (j - 4) htm (by omega)
          simp [e1, e2, e3, ety, e1b, etm, h2, h4, h6, h20]
        · by_cases h54 : j < 54
          · have e1 : (2 : Nat) ≤ j := by omega
            have e2 : (4 : Nat) ≤ j := by omega
            have e3 : (20 : Nat) ≤ j := by omega
            have ety := hbit ty 2 j hty (by omega)
            have e1b := hbit 1 2 (j - 2) (by norm_num) (by omega)
            have etm := hbit tm 2 (j - 4) htm (by omega)
            simp [e1, e2, e3, ety, e1b, etm, h2, h4, h6, h20, h54]
          · have e1 : (2 : Nat) ≤ j := by omega
            have e2 : (4 : Nat) ≤ j := by omega
            have e3 : (20 : Nat) ≤ j := by omega
            have ety := hbit ty 2 j hty (by omega)
            have e1b := hbit 1 2 (j - 2) (by norm_num) (by omega)
            have etm := hbit tm 2 (j - 4) htm (by omega)
            have epos := hbit pos 34 (j - 20) hpos (by omega)
            simp [e1, e2, e3, ety, e1b, etm, epos, h2, h4, h6, h20, h54]

@[simp] theorem getbits_zero (s m : Nat) : getbits 0 s m = 0 := by
  simp [getbits]

/-! ### Range facts for field reads and small helper lemmas -/

theorem stateOf_le (ship : Nat) : stateOf ship ≤ 3 := Nat.and_le_right
theorem timerOf_le (ship : Nat) : timerOf ship ≤ 3 := Nat.and_le_right
theorem typeOf_le (ship : Nat) : typeOf ship ≤ 3 := Nat.and_le_right
theorem fishOf_le (ship : Nat) : fishOf ship ≤ 16383 := Nat.and_le_right
theorem positionOf_le (ship : Nat) : positionOf ship ≤ 2 ^ 34 - 1 := Nat.and_le_right
theorem offsetXRaw_le (ship : Nat) : offsetXRaw ship ≤ 15 := Nat.and_le_right
theorem offsetYRaw_le (ship : Nat) : offsetYRaw ship ≤ 15 := Nat.and_le_right

theorem consumeCell_fst (r a : Nat) : (consumeCell r a).1 = min r a := by
  unfold consumeCell
  by_cases h : r > a <;> simp [h] <;> omega

theorem consumeCell_snd (r a : Nat) : (consumeCell r a).2 = a - min r a := by
  unfold consumeCell
  by_cases h : r > a <;> simp [h] <;> omega

/-! ### Characterizations of the per-ship switch -/

theorem shipStep_dead (d : Draws) (tick : Nat) (env : Env) (ship : Nat)
    (hst : stateOf ship = DEAD) :
    shipStep d tick env ship = (env, ship) := by
  have h : getbits ship STATE_SHIFT MASK_2BIT = DEAD := hst
  simp [shipStep, h, DEAD]

theorem shipStep_floating (d : Draws) (tick : Nat) (env : Env) (ship : Nat)
    (hst : stateOf ship = FLOATING) :
    shipStep d tick env ship = (env, floatStep d.timerDraw ship) := by
  have h : getbits ship STATE_SHIFT MASK_2BIT = FLOATING := hst
  simp [shipStep, h, DEAD, FLOATING]

theorem shipStep_fishing (d : Draws) (tick : Nat) (env : Env) (ship : Nat)
    (hst : stateOf ship = FISHING) :
    shipStep d tick env ship = fishStep d tick env ship := by
  have h : getbits ship STATE_SHIFT MASK_2BIT = FISHING := hst
  simp [shipStep, h, DEAD, FLOATING, FISHING]

theorem shipStep_finishing (d : Draws) (tick : Nat) (env : Env) (ship : Nat)
    (hst : stateOf ship = FINISHING) :
    shipStep d tick env ship =
      (⟨env.cells, env.timers, (finishStep env.alive ship).1⟩,
        (finishStep env.alive ship).2) := by
  have h : getbits ship STATE_SHIFT MASK_2BIT = FINISHING := hst
  simp [shipStep, h, DEAD, FLOATING, FISHING, FINISHING]

theorem fishStep_timer_pos (d : Draws) (tick : Nat) (env : Env) (ship : Nat)
    (ht : (getbits ship TIMER_SHIFT MASK_2BIT + 255) % 256 > 0) :
    fishStep d tick env ship =
      (env, setbits ship TIMER_SHIFT MASK_2BIT
        ((getbits ship TIMER_SHIFT MASK_2BIT + 255) % 256)) := by
  simp only [fishStep]
  rw [if_pos ht]

theorem fishStep_fire_some (d : Draws) (tick : Nat) (env : Env) (ship stored : Nat)
    (ht : timerOf ship = 1) (hc : env.cells (positionOf ship) = some stored) :
    fishStep d tick env ship =
      (⟨fun k => if k = positionOf ship
            then some (consumeCell d.catchDraw stored).2 else env.cells k,
        env.timers, env.alive⟩,
        if min (getbits (setbits ship TIMER_SHIFT MASK_2BIT 0) FISH_SHIFT MASK_14BIT +
              (consumeCell d.catchDraw stored).1) WIN_FISH_COUNT = WIN_FISH_COUNT then
          setbits (setbits (setbits ship TIMER_SHIFT MASK_2BIT 0) FISH_SHIFT MASK_14BIT
            (min (getbits (setbits ship TIMER_SHIFT MASK_2BIT 0) FISH_SHIFT MASK_14BIT +
              (consumeCell d.catchDraw stored).1) WIN_FISH_COUNT))
            STATE_SHIFT MASK_2BIT FINISHING
        else afterCatchShip d (ship &&& MASK_2BIT) (consumeCell d.catchDraw stored).2
          (setbits (setbits ship TIMER_SHIFT MASK_2BIT 0) FISH_SHIFT MASK_14BIT
            (min (getbits (setbits ship TIMER_SHIFT MASK_2BIT 0) FISH_SHIFT MASK_14BIT +
              (consumeCell d.catchDraw stored).1) WIN_FISH_COUNT))) := by
  have ht' : getbits ship TIMER_SHIFT MASK_2BIT = 1 := ht
  have hc' : env.cells (getbits ship POSITION_SHIFT MASK_34BIT) = some stored := hc
  simp only [fishStep, positionOf, ht', hc']
  norm_num

theorem fishStep_fire_none (d : Draws) (tick : Nat) (env : Env) (ship : Nat)
    (ht : timerOf ship = 1) (hc : env.cells (positionOf ship) = none) :
    fishStep d tick env ship =
      (⟨fun k => if k = positionOf ship
            then some (consumeCell d.catchDraw d.fishDraw).2 else env.cells k,
        fun j => if j = (⟨(tick + d.ttlDraw) % 30, Nat.mod_lt _ (by omega)⟩ : Fin 30)
            then env.timers j ++ [positionOf ship] else env.timers j,
        env.alive⟩,
        if min (getbits (setbits ship TIMER_SHIFT MASK_2BIT 0) FISH_SHIFT MASK_14BIT +
              (consumeCell d.catchDraw d.fishDraw).1) WIN_FISH_COUNT = WIN_FISH_COUNT then
          setbits (setbits (setbits ship TIMER_SHIFT MASK_2BIT 0) FISH_SHIFT MASK_14BIT
            (min (getbits (setbits ship TIMER_SHIFT MASK_2BIT 0) FISH_SHIFT MASK_14BIT +
              (consumeCell d.catchDraw d.fishDraw).1) WIN_FISH_COUNT))
            STATE_SHIFT MASK_2BIT FINISHING
        else afterCatchShip d (ship &&& MASK_2BIT) (consumeCell d.catchDraw d.fishDraw).2
          (setbits (setbits ship TIMER_SHIFT MASK_2BIT 0) FISH_SHIFT MASK_14BIT
            (min (getbits (setbits ship TIMER_SHIFT MASK_2BIT 0) FISH_SHIFT MASK_14BIT +
              (consumeCell d.catchDraw d.fishDraw).1) WIN_FISH_COUNT))) := by
  have ht' : getbits ship TIMER_SHIFT MASK_2BIT = 1 := ht
  have hc' : env.cells (getbits ship POSITION_SHIFT MASK_34BIT) = none := hc
  simp only [fishStep, positionOf, ht', hc']
  norm_num

theorem setbits_frame (n s w v j : Nat) (hsw : s + w ≤ 64) (hn : n < 2 ^ 64)
    (hj : Nat.testBit ((2 ^ w - 1) <<< s) j = false) :
    Nat.testBit (setbits n s (2 ^ w - 1) v) j = Nat.testBit n j := by
  rw [testBit_setbits _ _ _ _ _ hsw]
  rw [Nat.testBit_shiftLeft, Nat.testBit_two_pow_sub_one] at hj
  have h0 : ¬ (s ≤ j ∧ j < s + w) := by
    intro hcon
    have hb1 : s ≤ j := hcon.1
    have hb2 : j - s < w := by omega
    simp [hb1, hb2] at hj
  rw [if_neg h0]
  by_cases hj64 : j < 64
  · simp [hj64]
  · have hnb : Nat.testBit n j = false :=
      Nat.testBit_lt_two_pow
        (lt_of_lt_of_le hn (Nat.pow_le_pow_right (by omega) (by omega)))
    simp [hj64, hnb]

/-- The packed layout as a list of (shift, mask, width) triples, one per
field of the 64-bit agent record. -/
def shipFields : List (Nat × Nat × Nat) :=
  [(0, MASK_2BIT, 2), (STATE_SHIFT, MASK_2BIT, 2), (TIMER_SHIFT, MASK_2BIT, 2),
   (FISH_SHIFT, MASK_14BIT, 14), (POSITION_SHIFT, MASK_34BIT, 34),
   (OFFSET_X_SHIFT, MASK_4BIT, 4), (OFFSET_Y_SHIFT, MASK_4BIT, 4)]

/-- C3: for every 64-bit record, every field of the packed layout and
every value, writing with `setbits` and reading the same field back
returns the value truncated to the field's mask (hence the value itself
whenever it fits the field's width), and every bit outside the field's
mask is identical to what it was before the write. -/
theorem setbits_roundtrip_frame (s m w : Nat) (hf : (s, m, w) ∈ shipFields)
    (n v : Nat) (hn : n < 2 ^ 64) :
    getbits (setbits n s m v) s m = v % 2 ^ w ∧
    (v < 2 ^ w → getbits (setbits n s m v) s m = v) ∧
    (∀ j, Nat.testBit (m <<< s) j = false →
      Nat.testBit (setbits n s m v) j = Nat.testBit n j) := by
  have core : ∀ s0 w0 : Nat, s0 + w0 ≤ 64 →
      getbits (setbits n s0 (2 ^ w0 - 1) v) s0 (2 ^ w0 - 1) = v % 2 ^ w0 ∧
      (v < 2 ^ w0 → getbits (setbits n s0 (2 ^ w0 - 1) v) s0 (2 ^ w0 - 1) = v) ∧
      (∀ j, Nat.testBit ((2 ^ w0 - 1) <<< s0) j = false →
        Nat.testBit (setbits n s0 (2 ^ w0 - 1) v) j = Nat.testBit n j) := by
    intro s0 w0 hsw
    refine ⟨getbits_setbits_self n s0 w0 v hsw, fun hv => ?_,
      fun j hj => setbits_frame n s0 w0 v j hsw hn hj⟩
    rw [getbits_setbits_self n s0 w0 v hsw]
    exact Nat.mod_eq_of_lt hv
  simp only [shipFields, List.mem_cons, List.not_mem_nil, or_false] at hf
  rcases hf with h | h | h | h | h | h | h <;>
    (injection h with h1 h2; injection h2 with h2 h3; subst h1; subst h2; subst h3) <;>
    first
      | exact core 0 2 (by norm_num)
      | exact core 2 2 (by norm_num)
      | exact core 4 2 (by norm_num)
      | exact core 6 14 (by norm_num)
      | exact core 20 34 (by norm_num)
      | exact core 54 4 (by norm_num)
      | exact core 58 4 (by norm_num)

/-- Witness for C3 at the fish-counter field, record 12345 and an
overwide value 99999 (truncated to 99999 mod 2^14). -/
theorem setbits_roundtrip_frame_witness :
    (FISH_SHIFT, MASK_14BIT, 14) ∈ shipFields ∧ (12345 : Nat) < 2 ^ 64 ∧
    (getbits (setbits 12345 FISH_SHIFT MASK_14BIT 99999) FISH_SHIFT MASK_14BIT =
        99999 % 2 ^ 14 ∧
      ((99999 : Nat) < 2 ^ 14 →
        getbits (setbits 12345 FISH_SHIFT MASK_14BIT 99999) FISH_SHIFT MASK_14BIT =
          99999) ∧
      (∀ j, Nat.testBit (MASK_14BIT <<< FISH_SHIFT) j = false →
        Nat.testBit (setbits 12345 FISH_SHIFT MASK_14BIT 99999) j =
          Nat.testBit 12345 j)) :=
  ⟨by decide, by norm_num,
    setbits_roundtrip_frame FISH_SHIFT MASK_14BIT 14 (by decide) 12345 99999
      (by norm_num)⟩

/-- C4: the shared catch arithmetic of the two FISHING branches returns
an actual catch of min(requested, stored) and leaves the cell with
stored minus actual, which never exceeds the prior amount (and, the
amounts being naturals, never goes negative). -/
theorem consume_spec (fishCatched cellFishCounter : Nat) :
    (consumeCell fishCatched cellFishCounter).1 = min fishCatched cellFishCounter ∧
    (consumeCell fishCatched cellFishCounter).2 =
      cellFishCounter - (consumeCell fishCatched cellFishCounter).1 ∧
    (consumeCell fishCatched cellFishCounter).2 ≤ cellFishCounter := by
  unfold consumeCell
  by_cases h : fishCatched > cellFishCounter <;> simp [h] <;> omega

/-- C10: a freshly initialized ship is Fishing, has the drawn countdown
(in [1,3]) and the drawn position (within the grid), and both offset
fields hold raw 0, which de-biases to -8 on each axis, not 0. -/
theorem init_ship_fields (ty tm pos : Nat) (hty : ty ≤ 2) (htm1 : 1 ≤ tm)
    (htm3 : tm ≤ 3) (hpos : pos ≤ POSITION_BOUND) :
    stateOf (initShip ty tm pos) = FISHING ∧
    timerOf (initShip ty tm pos) = tm ∧
    1 ≤ timerOf (initShip ty tm pos) ∧ timerOf (initShip ty tm pos) ≤ 3 ∧
    positionOf (initShip ty tm pos) = pos ∧
    positionOf (initShip ty tm pos) ≤ POSITION_BOUND ∧
    offsetXRaw (initShip ty tm pos) = 0 ∧
    offsetYRaw (initShip ty tm pos) = 0 ∧
    debias (offsetXRaw (initShip ty tm pos)) = -8 ∧
    debias (offsetYRaw (initShip ty tm pos)) = -8 ∧
    debias (offsetXRaw (initShip ty tm pos)) ≠ 0 ∧
    debias (offsetYRaw (initShip ty tm pos)) ≠ 0 := by
  have hb : POSITION_BOUND = 999999 := by norm_num [POSITION_BOUND, WIDTH, HEIGHT]
  rw [hb] at hpos
  have hpos34 : pos < 2 ^ 34 := by omega
  rw [initShip_eq ty tm pos (by omega) (by omega) hpos34]
  simp only [stateOf_set_pos, stateOf_set_timer, stateOf_set_state,
    timerOf_set_pos, timerOf_set_timer, positionOf_set_pos,
    offsetXRaw_set_pos, offsetXRaw_set_timer, offsetXRaw_set_state,
    offsetXRaw_set_type, offsetYRaw_set_pos, offsetYRaw_set_timer,
    offsetYRaw_set_state, offsetYRaw_set_type, getbits_zero]
  rw [Nat.mod_eq_of_lt hpos34, Nat.mod_eq_of_lt (show tm < 2 ^ 2 by omega)]
  refine ⟨by decide, rfl, htm1, htm3, rfl, by omega, ?_⟩
  simp [offsetXRaw, offsetYRaw, debias]

/-- Witness for C10 at type 2, countdown 1, position 0. -/
theorem init_ship_fields_witness :
    (2 : Nat) ≤ 2 ∧ (1 : Nat) ≤ 1 ∧ (1 : Nat) ≤ 3 ∧ (0 : Nat) ≤ POSITION_BOUND ∧
    (stateOf (initShip 2 1 0) = FISHING ∧
      timerOf (initShip 2 1 0) = 1 ∧
      1 ≤ timerOf (initShip 2 1 0) ∧ timerOf (initShip 2 1 0) ≤ 3 ∧
      positionOf (initShip 2 1 0) = 0 ∧
      positionOf (initShip 2 1 0) ≤ POSITION_BOUND ∧
      offsetXRaw (initShip 2 1 0) = 0 ∧
      offsetYRaw (initShip 2 1 0) = 0 ∧
      debias (offsetXRaw (initShip 2 1 0)) = -8 ∧
      debias (offsetYRaw (initShip 2 1 0)) = -8 ∧
      debias (offsetXRaw (initShip 2 1 0)) ≠ 0 ∧
      debias (offsetYRaw (initShip 2 1 0)) ≠ 0) :=
  ⟨by decide, by decide, by decide, by decide,
    init_ship_fields 2 1 0 (by decide) (by decide) (by decide) (by decide)⟩

/-- C9: a Finishing ship at the last column of its row turns Dead and
the live counter drops by exactly one; otherwise its linear position
grows by exactly one, its row is unchanged, the counter is untouched
and it stays Finishing. -/
theorem finishing_step (alive : Int) (ship : Nat)
    (hp : positionOf ship ≤ POSITION_BOUND) :
    (positionOf ship % WIDTH = WIDTH - 1 →
      stateOf (finishStep alive ship).2 = DEAD ∧
      (finishStep alive ship).1 = alive - 1 ∧
      positionOf (finishStep alive ship).2 = positionOf ship) ∧
    (positionOf ship % WIDTH ≠ WIDTH - 1 →
      stateOf (finishStep alive ship).2 = stateOf ship ∧
      (finishStep alive ship).1 = alive ∧
      positionOf (finishStep alive ship).2 = positionOf ship + 1 ∧
      positionOf (finishStep alive ship).2 / WIDTH = positionOf ship / WIDTH) := by
  have hb : POSITION_BOUND = 999999 := by norm_num [POSITION_BOUND, WIDTH, HEIGHT]
  rw [hb] at hp
  have hw : WIDTH = 1000 := rfl
  have hstep : finishStep alive ship =
      if WIDTH - (positionOf ship % WIDTH + 1) = 0
      then (alive - 1, setbits ship STATE_SHIFT MASK_2BIT DEAD)
      else (alive, setbits ship POSITION_SHIFT MASK_34BIT (positionOf ship + 1)) := rfl
  have h34 : (2 : Nat) ^ 34 = 17179869184 := by norm_num
  constructor
  · intro hlast
    rw [hw] at hlast
    have hdist : WIDTH - (positionOf ship % WIDTH + 1) = 0 := by
      rw [hw]; omega
    rw [hstep, if_pos hdist]
    refine ⟨?_, rfl, ?_⟩
    · simp [DEAD]
    · simp
  · intro hlast
    rw [hw] at hlast
    have hdist : ¬ (WIDTH - (positionOf ship % WIDTH + 1) = 0) := by
      rw [hw]; omega
    rw [hstep, if_neg hdist]
    have hlt : positionOf ship + 1 < 2 ^ 34 := by omega
    refine ⟨by simp, rfl, ?_, ?_⟩
    · simp only [positionOf_set_pos]
      exact Nat.mod_eq_of_lt hlt
    · simp only [positionOf_set_pos, Nat.mod_eq_of_lt hlt, hw]
      omega

/-- Witness for C9 at a ship one cell before the last column (position
998, row 0) and a ship exactly at the last column (position 999). -/
theorem finishing_step_witness :
    positionOf (setbits 0 POSITION_SHIFT MASK_34BIT 998) ≤ POSITION_BOUND ∧
    ((positionOf (setbits 0 POSITION_SHIFT MASK_34BIT 998) % WIDTH = WIDTH - 1 →
      stateOf (finishStep 7 (setbits 0 POSITION_SHIFT MASK_34BIT 998)).2 = DEAD ∧
      (finishStep 7 (setbits 0 POSITION_SHIFT MASK_34BIT 998)).1 = 7 - 1 ∧
      positionOf (finishStep 7 (setbits 0 POSITION_SHIFT MASK_34BIT 998)).2 =
        positionOf (setbits 0 POSITION_SHIFT MASK_34BIT 998)) ∧
    (positionOf (setbits 0 POSITION_SHIFT MASK_34BIT 998) % WIDTH ≠ WIDTH - 1 →
      stateOf (finishStep 7 (setbits 0 POSITION_SHIFT MASK_34BIT 998)).2 =
        stateOf (setbits 0 POSITION_SHIFT MASK_34BIT 998) ∧
      (finishStep 7 (setbits 0 POSITION_SHIFT MASK_34BIT 998)).1 = 7 ∧
      positionOf (finishStep 7 (setbits 0 POSITION_SHIFT MASK_34BIT 998)).2 =
        positionOf (setbits 0 POSITION_SHIFT MASK_34BIT 998) + 1 ∧
      positionOf (finishStep 7 (setbits 0 POSITION_SHIFT MASK_34BIT 998)).2 / WIDTH =
        positionOf (setbits 0 POSITION_SHIFT MASK_34BIT 998) / WIDTH)) :=
  ⟨by decide, finishing_step 7 (setbits 0 POSITION_SHIFT MASK_34BIT 998) (by decide)⟩

end GrandFishing

namespace GrandFishing

/-- C1 as stated is false on the code: a freshly initialized Restless
ship (both offset fields raw 0, hence de-biased -8) completes a catch
cycle and lands in Floating with X de-biased +1 but Y de-biased -8,
not 0 — the RESTLESS branch never writes the Y offset. -/
theorem restless_first_cycle_cex :
    typeOf (initShip 2 1 0) = RESTLESS ∧
    stateOf (initShip 2 1 0) = FISHING ∧
    stateOf (shipStep ⟨5, 7, 15, 0, 0, 2⟩ 1 ⟨fun _ => none, fun _ => [], 1⟩
      (initShip 2 1 0)).2 = FLOATING ∧
    debias (offsetXRaw (shipStep ⟨5, 7, 15, 0, 0, 2⟩ 1 ⟨fun _ => none, fun _ => [], 1⟩
      (initShip 2 1 0)).2) = 1 ∧
    debias (offsetYRaw (shipStep ⟨5, 7, 15, 0, 0, 2⟩ 1 ⟨fun _ => none, fun _ => [], 1⟩
      (initShip 2 1 0)).2) = -8 ∧
    ((-8 : Int) ≠ 0) := by
  decide

/-- C1 (amended): a Restless ship whose fishing countdown fires without
reaching the win threshold transitions to Floating with de-biased
X-offset exactly +1, while its Y-offset field is left unchanged (so the
de-biased Y-offset is 0 exactly when it already was 0 before the
cycle, and -8 for a freshly initialized ship). -/
theorem restless_catch_cycle (d : Draws) (tick : Nat) (env : Env) (ship a : Nat)
    (hty : typeOf ship = RESTLESS) (hst : stateOf ship = FISHING)
    (ht : timerOf ship = 1)
    (ha : (match env.cells (positionOf ship) with
           | none => d.fishDraw
           | some stored => stored) = a)
    (hwin : fishOf ship + min d.catchDraw a < WIN_FISH_COUNT) :
    stateOf (shipStep d tick env ship).2 = FLOATING ∧
    debias (offsetXRaw (shipStep d tick env ship).2) = 1 ∧
    offsetYRaw (shipStep d tick env ship).2 = offsetYRaw ship := by
  rw [shipStep_fishing d tick env ship hst]
  have hty' : ship &&& MASK_2BIT = RESTLESS := hty
  rcases hcell : env.cells (positionOf ship) with _ | stored
  · rw [hcell] at ha
    subst ha
    rw [fishStep_fire_none d tick env ship ht hcell]
    rw [show getbits (setbits ship TIMER_SHIFT MASK_2BIT 0) FISH_SHIFT MASK_14BIT
        = fishOf ship from fishOf_set_timer ship 0]
    rw [consumeCell_fst, consumeCell_snd]
    rw [min_eq_left (le_of_lt hwin)]
    rw [if_neg (by omega)]
    rw [hty']
    simp only [afterCatchShip, RESTLESS, GREEDY, LAZY]
    norm_num
    exact ⟨by norm_num [FLOATING], by norm_num [debias]⟩
  · rw [hcell] at ha
    subst ha
    rw [fishStep_fire_some d tick env ship stored ht hcell]
    rw [show getbits (setbits ship TIMER_SHIFT MASK_2BIT 0) FISH_SHIFT MASK_14BIT
        = fishOf ship from fishOf_set_timer ship 0]
    rw [consumeCell_fst, consumeCell_snd]
    rw [min_eq_left (le_of_lt hwin)]
    rw [if_neg (by omega)]
    rw [hty']
    simp only [afterCatchShip, RESTLESS, GREEDY, LAZY]
    norm_num
    exact ⟨by norm_num [FLOATING], by norm_num [debias]⟩

/-- Witness for the amended C1 on a freshly initialized Restless ship
fishing an undetermined cell. -/
theorem restless_catch_cycle_witness :
    typeOf (initShip 2 1 0) = RESTLESS ∧
    stateOf (initShip 2 1 0) = FISHING ∧
    timerOf (initShip 2 1 0) = 1 ∧
    ((match (⟨fun _ => none, fun _ => [], 1⟩ : Env).cells (positionOf (initShip 2 1 0)) with
      | none => (⟨5, 7, 15, 0, 0, 2⟩ : Draws).fishDraw
      | some stored => stored) = 7) ∧
    fishOf (initShip 2 1 0) + min (⟨5, 7, 15, 0, 0, 2⟩ : Draws).catchDraw 7 <
      WIN_FISH_COUNT ∧
    (stateOf (shipStep ⟨5, 7, 15, 0, 0, 2⟩ 1 ⟨fun _ => none, fun _ => [], 1⟩
        (initShip 2 1 0)).2 = FLOATING ∧
      debias (offsetXRaw (shipStep ⟨5, 7, 15, 0, 0, 2⟩ 1
        ⟨fun _ => none, fun _ => [], 1⟩ (initShip 2 1 0)).2) = 1 ∧
      offsetYRaw (shipStep ⟨5, 7, 15, 0, 0, 2⟩ 1 ⟨fun _ => none, fun _ => [], 1⟩
        (initShip 2 1 0)).2 = offsetYRaw (initShip 2 1 0)) :=
  ⟨by decide, by decide, by decide, by decide, by decide,
    restless_catch_cycle ⟨5, 7, 15, 0, 0, 2⟩ 1 ⟨fun _ => none, fun _ => [], 1⟩
      (initShip 2 1 0) 7 (by decide) (by decide) (by decide) (by decide) (by decide)⟩

/-- C8: whenever the countdown fires and the collected total reaches the
win threshold, the ship goes to Finishing on that same tick, its
collected counter is pinned at the threshold, and none of the
type-specific post-catch effects happen (offsets and timer fields are
exactly as the decrement left them, the type field is untouched) —
irrespective of the ship's type. -/
theorem win_overrides_type (d : Draws) (tick : Nat) (env : Env) (ship a : Nat)
    (hst : stateOf ship = FISHING) (ht : timerOf ship = 1)
    (ha : (match env.cells (positionOf ship) with
           | none => d.fishDraw
           | some stored => stored) = a)
    (hwin : WIN_FISH_COUNT ≤ fishOf ship + min d.catchDraw a) :
    stateOf (shipStep d tick env ship).2 = FINISHING ∧
    fishOf (shipStep d tick env ship).2 = WIN_FISH_COUNT ∧
    offsetXRaw (shipStep d tick env ship).2 = offsetXRaw ship ∧
    offsetYRaw (shipStep d tick env ship).2 = offsetYRaw ship ∧
    timerOf (shipStep d tick env ship).2 = 0 ∧
    typeOf (shipStep d tick env ship).2 = typeOf ship := by
  rw [shipStep_fishing d tick env ship hst]
  rcases hcell : env.cells (positionOf ship) with _ | stored
  · rw [hcell] at ha
    subst ha
    rw [fishStep_fire_none d tick env ship ht hcell]
    rw [show getbits (setbits ship TIMER_SHIFT MASK_2BIT 0) FISH_SHIFT MASK_14BIT
        = fishOf ship from fishOf_set_timer ship 0]
    rw [consumeCell_fst]
    rw [min_eq_right hwin]
    rw [if_pos rfl]
    refine ⟨by simp [FINISHING], ?_, by simp, by simp, by simp, by simp⟩
    simp only [fishOf_set_state, fishOf_set_fish]
    norm_num [WIN_FISH_COUNT]
  · rw [hcell] at ha
    subst ha
    rw [fishStep_fire_some d tick env ship stored ht hcell]
    rw [show getbits (setbits ship TIMER_SHIFT MASK_2BIT 0) FISH_SHIFT MASK_14BIT
        = fishOf ship from fishOf_set_timer ship 0]
    rw [consumeCell_fst]
    rw [min_eq_right hwin]
    rw [if_pos rfl]
    refine ⟨by simp [FINISHING], ?_, by simp, by simp, by simp, by simp⟩
    simp only [fishOf_set_state, fishOf_set_fish]
    norm_num [WIN_FISH_COUNT]

/-- Witness for C8: a Lazy ship holding 9999 fish catches 3 from a cell
holding 3 and finishes. -/
theorem win_overrides_type_witness :
    stateOf (setbits (initShip 1 1 0) FISH_SHIFT MASK_14BIT 9999) = FISHING ∧
    timerOf (setbits (initShip 1 1 0) FISH_SHIFT MASK_14BIT 9999) = 1 ∧
    ((match (⟨fun k => if k = 0 then some 3 else none, fun _ => [], 1⟩ : Env).cells
        (positionOf (setbits (initShip 1 1 0) FISH_SHIFT MASK_14BIT 9999)) with
      | none => (⟨5, 7, 15, 0, 0, 2⟩ : Draws).fishDraw
      | some stored => stored) = 3) ∧
    WIN_FISH_COUNT ≤ fishOf (setbits (initShip 1 1 0) FISH_SHIFT MASK_14BIT 9999) +
      min (⟨5, 7, 15, 0, 0, 2⟩ : Draws).catchDraw 3 ∧
    (stateOf (shipStep ⟨5, 7, 15, 0, 0, 2⟩ 1
        ⟨fun k => if k = 0 then some 3 else none, fun _ => [], 1⟩
        (setbits (initShip 1 1 0) FISH_SHIFT MASK_14BIT 9999)).2 = FINISHING ∧
      fishOf (shipStep ⟨5, 7, 15, 0, 0, 2⟩ 1
        ⟨fun k => if k = 0 then some 3 else none, fun _ => [], 1⟩
        (setbits (initShip 1 1 0) FISH_SHIFT MASK_14BIT 9999)).2 = WIN_FISH_COUNT ∧
      offsetXRaw (shipStep ⟨5, 7, 15, 0, 0, 2⟩ 1
        ⟨fun k => if k = 0 then some 3 else none, fun _ => [], 1⟩
        (setbits (initShip 1 1 0) FISH_SHIFT MASK_14BIT 9999)).2 =
        offsetXRaw (setbits (initShip 1 1 0) FISH_SHIFT MASK_14BIT 9999) ∧
      offsetYRaw (shipStep ⟨5, 7, 15, 0, 0, 2⟩ 1
        ⟨fun k => if k = 0 then some 3 else none, fun _ => [], 1⟩
        (setbits (initShip 1 1 0) FISH_SHIFT MASK_14BIT 9999)).2 =
        offsetYRaw (setbits (initShip 1 1 0) FISH_SHIFT MASK_14BIT 9999) ∧
      timerOf (shipStep ⟨5, 7, 15, 0, 0, 2⟩ 1
        ⟨fun k => if k = 0 then some 3 else none, fun _ => [], 1⟩
        (setbits (initShip 1 1 0) FISH_SHIFT MASK_14BIT 9999)).2 = 0 ∧
      typeOf (shipStep ⟨5, 7, 15, 0, 0, 2⟩ 1
        ⟨fun k => if k = 0 then some 3 else none, fun _ => [], 1⟩
        (setbits (initShip 1 1 0) FISH_SHIFT MASK_14BIT 9999)).2 =
        typeOf (setbits (initShip 1 1 0) FISH_SHIFT MASK_14BIT 9999)) :=
  ⟨by decide, by decide, by decide, by decide,
    win_overrides_type ⟨5, 7, 15, 0, 0, 2⟩ 1
      ⟨fun k => if k = 0 then some 3 else none, fun _ => [], 1⟩
      (setbits (initShip 1 1 0) FISH_SHIFT MASK_14BIT 9999) 3
      (by decide) (by decide) (by decide) (by decide)⟩

end GrandFishing

namespace GrandFishing

theorem sub64_one (p : Nat) (hp : p < 2 ^ 64) :
    sub64 p 1 = if p = 0 then 2 ^ 64 - 1 else p - 1 := by
  unfold sub64
  rcases Nat.eq_zero_or_pos p with h | h
  · subst h; norm_num
  · rw [if_neg (by omega)]
    have h1 : (1 : Nat) % 2 ^ 64 = 1 := by norm_num
    rw [h1]
    have h2 : p + (2 ^ 64 - 1) = (p - 1) + 1 * 2 ^ 64 := by omega
    rw [h2, Nat.add_mul_mod_self_right]
    exact Nat.mod_eq_of_lt (by omega)

theorem floatStep_xpos (t ship : Nat)
    (h2 : ((getbits ship OFFSET_X_SHIFT MASK_4BIT : Int) - 8) > 0) :
    floatStep t ship =
      setbits (setbits ship OFFSET_X_SHIFT MASK_4BIT
        ((((getbits ship OFFSET_X_SHIFT MASK_4BIT : Int) - 8) - 1 + 8).toNat))
        POSITION_SHIFT MASK_34BIT
        (if getbits ship POSITION_SHIFT MASK_34BIT + 1 > POSITION_BOUND then 0
         else getbits ship POSITION_SHIFT MASK_34BIT + 1) := by
  have h1 : ¬ (((getbits ship OFFSET_X_SHIFT MASK_4BIT : Int) - 8) = 0 ∧
      ((getbits ship OFFSET_Y_SHIFT MASK_4BIT : Int) - 8) = 0) := by
    intro hcon
    omega
  simp only [floatStep]
  rw [if_neg h1, if_pos h2]

theorem floatStep_xneg (t ship : Nat)
    (h2 : ((getbits ship OFFSET_X_SHIFT MASK_4BIT : Int) - 8) < 0) :
    floatStep t ship =
      setbits (setbits ship OFFSET_X_SHIFT MASK_4BIT
        ((((getbits ship OFFSET_X_SHIFT MASK_4BIT : Int) - 8) + 1 + 8).toNat))
        POSITION_SHIFT MASK_34BIT
        (if sub64 (getbits ship POSITION_SHIFT MASK_34BIT) 1 > POSITION_BOUND
         then POSITION_BOUND
         else sub64 (getbits ship POSITION_SHIFT MASK_34BIT) 1) := by
  have h1 : ¬ (((getbits ship OFFSET_X_SHIFT MASK_4BIT : Int) - 8) = 0 ∧
      ((getbits ship OFFSET_Y_SHIFT MASK_4BIT : Int) - 8) = 0) := by
    intro hcon
    omega
  have h3 : ¬ (((getbits ship OFFSET_X_SHIFT MASK_4BIT : Int) - 8) > 0) := by omega
  simp only [floatStep]
  rw [if_neg h1, if_neg h3, if_pos h2]

theorem floatStep_yup (t ship : Nat)
    (hx : ((getbits ship OFFSET_X_SHIFT MASK_4BIT : Int) - 8) = 0)
    (hy : ((getbits ship OFFSET_Y_SHIFT MASK_4BIT : Int) - 8) > 0) :
    floatStep t ship =
      setbits (setbits ship OFFSET_Y_SHIFT MASK_4BIT
        ((((getbits ship OFFSET_Y_SHIFT MASK_4BIT : Int) - 8) - 1 + 8).toNat))
        POSITION_SHIFT MASK_34BIT
        (if getbits ship POSITION_SHIFT MASK_34BIT < WIDTH
         then POSITION_BOUND - (WIDTH - getbits ship POSITION_SHIFT MASK_34BIT - 1)
         else getbits ship POSITION_SHIFT MASK_34BIT - WIDTH) := by
  have h1 : ¬ (((getbits ship OFFSET_X_SHIFT MASK_4BIT : Int) - 8) = 0 ∧
      ((getbits ship OFFSET_Y_SHIFT MASK_4BIT : Int) - 8) = 0) := by
    intro hcon
    omega
  have h3 : ¬ (((getbits ship OFFSET_X_SHIFT MASK_4BIT : Int) - 8) > 0) := by omega
  have h4 : ¬ (((getbits ship OFFSET_X_SHIFT MASK_4BIT : Int) - 8) < 0) := by omega
  simp only [floatStep]
  rw [if_neg h1, if_neg h3, if_neg h4, if_pos hy]

theorem floatStep_ydown (t ship : Nat)
    (hx : ((getbits ship OFFSET_X_SHIFT MASK_4BIT : Int) - 8) = 0)
    (hy : ((getbits ship OFFSET_Y_SHIFT MASK_4BIT : Int) - 8) < 0) :
    floatStep t ship =
      setbits (setbits ship OFFSET_Y_SHIFT MASK_4BIT
        ((((getbits ship OFFSET_Y_SHIFT MASK_4BIT : Int) - 8) + 1 + 8).toNat))
        POSITION_SHIFT MASK_34BIT
        (if getbits ship POSITION_SHIFT MASK_34BIT + WIDTH > POSITION_BOUND
         then sub64 (sub64 WIDTH
           (sub64 POSITION_BOUND (getbits ship POSITION_SHIFT MASK_34BIT))) 1
         else getbits ship POSITION_SHIFT MASK_34BIT + WIDTH) := by
  have h1 : ¬ (((getbits ship OFFSET_X_SHIFT MASK_4BIT : Int) - 8) = 0 ∧
      ((getbits ship OFFSET_Y_SHIFT MASK_4BIT : Int) - 8) = 0) := by
    intro hcon
    omega
  have h3 : ¬ (((getbits ship OFFSET_X_SHIFT MASK_4BIT : Int) - 8) > 0) := by omega
  have h4 : ¬ (((getbits ship OFFSET_X_SHIFT MASK_4BIT : Int) - 8) < 0) := by omega
  have h5 : ¬ (((getbits ship OFFSET_Y_SHIFT MASK_4BIT : Int) - 8) > 0) := by omega
  simp only [floatStep]
  rw [if_neg h1, if_neg h3, if_neg h4, if_neg h5]

/-- C2: in Floating with not both offsets zero, the ship steps along X
whenever the X offset is nonzero (and along Y only when X is zero),
the stepped offset's magnitude drops by one, and a horizontal step
moves the linear position by one, wrapping only at the global grid
boundary (W*H-1 stepping right lands on 0, 0 stepping left lands on
W*H-1), never per-row. -/
theorem floating_step_x_priority (d : Draws) (tick : Nat) (env : Env) (ship : Nat)
    (hst : stateOf ship = FLOATING)
    (hp : positionOf ship ≤ POSITION_BOUND)
    (hne : ¬ (debias (offsetXRaw ship) = 0 ∧ debias (offsetYRaw ship) = 0)) :
    (debias (offsetXRaw ship) ≠ 0 →
      positionOf (shipStep d tick env ship).2 =
        (if 0 < debias (offsetXRaw ship) then
          (if positionOf ship = POSITION_BOUND then 0 else positionOf ship + 1)
        else
          (if positionOf ship = 0 then POSITION_BOUND else positionOf ship - 1)) ∧
      (debias (offsetXRaw (shipStep d tick env ship).2)).natAbs =
        (debias (offsetXRaw ship)).natAbs - 1 ∧
      offsetYRaw (shipStep d tick env ship).2 = offsetYRaw ship ∧
      stateOf (shipStep d tick env ship).2 = FLOATING) ∧
    (debias (offsetXRaw ship) = 0 →
      offsetXRaw (shipStep d tick env ship).2 = offsetXRaw ship ∧
      (debias (offsetYRaw (shipStep d tick env ship).2)).natAbs =
        (debias (offsetYRaw ship)).natAbs - 1 ∧
      stateOf (shipStep d tick env ship).2 = FLOATING) := by
  have hred : (shipStep d tick env ship).2 = floatStep d.timerDraw ship := by
    rw [shipStep_floating d tick env ship hst]
  rw [hred]
  have hb : POSITION_BOUND = 999999 := by norm_num [POSITION_BOUND, WIDTH, HEIGHT]
  have hxle := offsetXRaw_le ship
  have hyle := offsetYRaw_le ship
  constructor
  · intro hxne
    by_cases hxpos : (0 : Int) < debias (offsetXRaw ship)
    · have h2 : ((getbits ship OFFSET_X_SHIFT MASK_4BIT : Int) - 8) > 0 := hxpos
      rw [floatStep_xpos d.timerDraw ship h2, if_pos hxpos]
      have hraw : 8 < offsetXRaw ship := by
        have := hxpos
        simp only [debias] at this
        omega
      refine ⟨?_, ?_, by simp,
        by simp only [stateOf_set_pos, stateOf_set_x]; exact hst⟩
      · simp only [positionOf_set_pos]
        rw [show getbits ship POSITION_SHIFT MASK_34BIT = positionOf ship from rfl]
        rw [hb] at hp ⊢
        by_cases hpb : positionOf ship = 999999
        · rw [if_pos hpb, hpb, if_pos (by omega)]
          norm_num
        · rw [if_neg hpb, if_neg (by omega)]
          exact Nat.mod_eq_of_lt (by omega)
      · simp only [offsetXRaw_set_pos, offsetXRaw_set_x]
        have hv : (((getbits ship OFFSET_X_SHIFT MASK_4BIT : Int) - 8) - 1 + 8).toNat =
            offsetXRaw ship - 1 := by
          simp only [offsetXRaw] at hraw ⊢
          omega
        rw [hv, Nat.mod_eq_of_lt (by omega)]
        simp only [debias]
        omega
    · have h2 : ((getbits ship OFFSET_X_SHIFT MASK_4BIT : Int) - 8) < 0 := by
        have hxz : debias (offsetXRaw ship) ≠ 0 := hxne
        simp only [debias, offsetXRaw] at hxz hxpos ⊢
        omega
      rw [floatStep_xneg d.timerDraw ship h2, if_neg hxpos]
      have hraw : offsetXRaw ship < 8 := by
        have := h2
        simp only [offsetXRaw]
        omega
      have hp64 : getbits ship POSITION_SHIFT MASK_34BIT < 2 ^ 64 := by
        have := positionOf_le ship
        simp only [positionOf] at this
        omega
      refine ⟨?_, ?_, by simp,
        by simp only [stateOf_set_pos, stateOf_set_x]; exact hst⟩
      · simp only [positionOf_set_pos]
        rw [show getbits ship POSITION_SHIFT MASK_34BIT = positionOf ship from rfl]
        rw [sub64_one _ (by omega : positionOf ship < 2 ^ 64)]
        rw [hb] at hp ⊢
        by_cases hp0 : positionOf ship = 0
        · rw [if_pos hp0, if_pos hp0, if_pos (by norm_num)]
          norm_num
        · rw [if_neg hp0, if_neg hp0, if_neg (by omega)]
          exact Nat.mod_eq_of_lt (by omega)
      · simp only [offsetXRaw_set_pos, offsetXRaw_set_x]
        have hv : (((getbits ship OFFSET_X_SHIFT MASK_4BIT : Int) - 8) + 1 + 8).toNat =
            offsetXRaw ship + 1 := by
          simp only [offsetXRaw] at hraw ⊢
          omega
        rw [hv, Nat.mod_eq_of_lt (by omega)]
        simp only [debias] at hxne hxpos ⊢
        omega
  · intro hx0
    have hx0' : ((getbits ship OFFSET_X_SHIFT MASK_4BIT : Int) - 8) = 0 := hx0
    have hyne : debias (offsetYRaw ship) ≠ 0 := fun hy => hne ⟨hx0, hy⟩
    by_cases hypos : (0 : Int) < debias (offsetYRaw ship)
    · have hy2 : ((getbits ship OFFSET_Y_SHIFT MASK_4BIT : Int) - 8) > 0 := hypos
      rw [floatStep_yup d.timerDraw ship hx0' hy2]
      have hraw : 8 < offsetYRaw ship := by
        have := hypos
        simp only [debias, offsetYRaw] at this ⊢
        omega
      refine ⟨by simp, ?_,
        by simp only [stateOf_set_pos, stateOf_set_y]; exact hst⟩
      simp only [offsetYRaw_set_pos, offsetYRaw_set_y]
      have hv : (((getbits ship OFFSET_Y_SHIFT MASK_4BIT : Int) - 8) - 1 + 8).toNat =
          offsetYRaw ship - 1 := by
        simp only [offsetYRaw] at hraw ⊢
        omega
      rw [hv, Nat.mod_eq_of_lt (by omega)]
      simp only [debias]
      omega
    · have hy2 : ((getbits ship OFFSET_Y_SHIFT MASK_4BIT : Int) - 8) < 0 := by
        simp only [debias, offsetYRaw] at hyne hypos ⊢
        omega
      rw [floatStep_ydown d.timerDraw ship hx0' hy2]
      have hraw : offsetYRaw ship < 8 := by
        have := hy2
        simp only [offsetYRaw]
        omega
      refine ⟨by simp, ?_,
        by simp only [stateOf_set_pos, stateOf_set_y]; exact hst⟩
      simp only [offsetYRaw_set_pos, offsetYRaw_set_y]
      have hv : (((getbits ship OFFSET_Y_SHIFT MASK_4BIT : Int) - 8) + 1 + 8).toNat =
          offsetYRaw ship + 1 := by
        simp only [offsetYRaw] at hraw ⊢
        omega
      rw [hv, Nat.mod_eq_of_lt (by omega)]
      simp only [debias] at hyne hypos ⊢
      omega

/-- Witness for C2: a Floating ship at the last cell of the grid with
de-biased X-offset +1 wraps to linear position 0. -/
theorem floating_step_x_priority_witness :
    stateOf (setbits (setbits 0 OFFSET_X_SHIFT MASK_4BIT 9) POSITION_SHIFT MASK_34BIT
      999999) = FLOATING ∧
    positionOf (setbits (setbits 0 OFFSET_X_SHIFT MASK_4BIT 9) POSITION_SHIFT
      MASK_34BIT 999999) ≤ POSITION_BOUND ∧
    ¬ (debias (offsetXRaw (setbits (setbits 0 OFFSET_X_SHIFT MASK_4BIT 9)
          POSITION_SHIFT MASK_34BIT 999999)) = 0 ∧
        debias (offsetYRaw (setbits (setbits 0 OFFSET_X_SHIFT MASK_4BIT 9)
          POSITION_SHIFT MASK_34BIT 999999)) = 0) ∧
    ((debias (offsetXRaw (setbits (setbits 0 OFFSET_X_SHIFT MASK_4BIT 9)
        POSITION_SHIFT MASK_34BIT 999999)) ≠ 0 →
      positionOf (shipStep ⟨5, 7, 15, 0, 0, 2⟩ 1 ⟨fun _ => none, fun _ => [], 1⟩
          (setbits (setbits 0 OFFSET_X_SHIFT MASK_4BIT 9) POSITION_SHIFT MASK_34BIT
            999999)).2 =
        (if 0 < debias (offsetXRaw (setbits (setbits 0 OFFSET_X_SHIFT MASK_4BIT 9)
            POSITION_SHIFT MASK_34BIT 999999)) then
          (if positionOf (setbits (setbits 0 OFFSET_X_SHIFT MASK_4BIT 9)
              POSITION_SHIFT MASK_34BIT 999999) = POSITION_BOUND then 0
           else positionOf (setbits (setbits 0 OFFSET_X_SHIFT MASK_4BIT 9)
              POSITION_SHIFT MASK_34BIT 999999) + 1)
        else
          (if positionOf (setbits (setbits 0 OFFSET_X_SHIFT MASK_4BIT 9)
              POSITION_SHIFT MASK_34BIT 999999) = 0 then POSITION_BOUND
           else positionOf (setbits (setbits 0 OFFSET_X_SHIFT MASK_4BIT 9)
              POSITION_SHIFT MASK_34BIT 999999) - 1)) ∧
      (debias (offsetXRaw (shipStep ⟨5, 7, 15, 0, 0, 2⟩ 1
          ⟨fun _ => none, fun _ => [], 1⟩
          (setbits (setbits 0 OFFSET_X_SHIFT MASK_4BIT 9) POSITION_SHIFT MASK_34BIT
            999999)).2)).natAbs =
        (debias (offsetXRaw (setbits (setbits 0 OFFSET_X_SHIFT MASK_4BIT 9)
          POSITION_SHIFT MASK_34BIT 999999))).natAbs - 1 ∧
      offsetYRaw (shipStep ⟨5, 7, 15, 0, 0, 2⟩ 1 ⟨fun _ => none, fun _ => [], 1⟩
          (setbits (setbits 0 OFFSET_X_SHIFT MASK_4BIT 9) POSITION_SHIFT MASK_34BIT
            999999)).2 =
        offsetYRaw (setbits (setbits 0 OFFSET_X_SHIFT MASK_4BIT 9) POSITION_SHIFT
          MASK_34BIT 999999) ∧
      stateOf (shipStep ⟨5, 7, 15, 0, 0, 2⟩ 1 ⟨fun _ => none, fun _ => [], 1⟩
          (setbits (setbits 0 OFFSET_X_SHIFT MASK_4BIT 9) POSITION_SHIFT MASK_34BIT
            999999)).2 = FLOATING) ∧
    (debias (offsetXRaw (setbits (setbits 0 OFFSET_X_SHIFT MASK_4BIT 9)
        POSITION_SHIFT MASK_34BIT 999999)) = 0 →
      offsetXRaw (shipStep ⟨5, 7, 15, 0, 0, 2⟩ 1 ⟨fun _ => none, fun _ => [], 1⟩
          (setbits (setbits 0 OFFSET_X_SHIFT MASK_4BIT 9) POSITION_SHIFT MASK_34BIT
            999999)).2 =
        offsetXRaw (setbits (setbits 0 OFFSET_X_SHIFT MASK_4BIT 9) POSITION_SHIFT
          MASK_34BIT 999999) ∧
      (debias (offsetYRaw (shipStep ⟨5, 7, 15, 0, 0, 2⟩ 1
          ⟨fun _ => none, fun _ => [], 1⟩
          (setbits (setbits 0 OFFSET_X_SHIFT MASK_4BIT 9) POSITION_SHIFT MASK_34BIT
            999999)).2)).natAbs =
        (debias (offsetYRaw (setbits (setbits 0 OFFSET_X_SHIFT MASK_4BIT 9)
          POSITION_SHIFT MASK_34BIT 999999))).natAbs - 1 ∧
      stateOf (shipStep ⟨5, 7, 15, 0, 0, 2⟩ 1 ⟨fun _ => none, fun _ => [], 1⟩
          (setbits (setbits 0 OFFSET_X_SHIFT MASK_4BIT 9) POSITION_SHIFT MASK_34BIT
            999999)).2 = FLOATING)) :=
  ⟨by decide, by decide, by decide,
    floating_step_x_priority ⟨5, 7, 15, 0, 0, 2⟩ 1 ⟨fun _ => none, fun _ => [], 1⟩
      (setbits (setbits 0 OFFSET_X_SHIFT MASK_4BIT 9) POSITION_SHIFT MASK_34BIT 999999)
      (by decide) (by decide) (by decide)⟩

end GrandFishing

namespace GrandFishing

/-! ### Ring-buffer and map bookkeeping lemmas -/

theorem foldl_eraseCell (cells : Nat → Option Nat) (l : List Nat) (c : Nat) :
    (l.foldl eraseCell cells) c = if c ∈ l then none else cells c := by
  induction l generalizing cells with
  | nil => simp
  | cons a l ih =>
      simp only [List.foldl_cons, ih, eraseCell, List.mem_cons]
      by_cases h1 : c ∈ l
      · simp [h1]
      · by_cases h2 : c = a <;> simp [h1, h2]

theorem occ_append (timers : Fin 30 → List Nat) (idx : Fin 30) (p c : Nat) :
    occ (fun j => if j = idx then timers j ++ [p] else timers j) c =
      occ timers c + if c = p then 1 else 0 := by
  unfold occ
  have hcong : ∀ j : Fin 30,
      ((if j = idx then timers j ++ [p] else timers j).count c) =
        (timers j).count c + (if j = idx then [p].count c else 0) := by
    intro j
    by_cases h : j = idx <;> simp [h]
  rw [Finset.sum_congr rfl (fun j _ => hcong j), Finset.sum_add_distrib]
  have hsingle : (∑ j : Fin 30, if j = idx then [p].count c else 0) = [p].count c := by
    simp [Finset.sum_ite_eq']
  rw [hsingle, List.count_singleton']
  by_cases h : c = p
  · simp [h]
  · have h2 : ¬ p = c := fun hpc => h hpc.symm
    simp [h, h2]

theorem occ_clear (timers : Fin 30 → List Nat) (k : Fin 30) (c : Nat) :
    occ timers c =
      occ (fun j => if j = k then ([] : List Nat) else timers j) c +
        (timers k).count c := by
  unfold occ
  have hcong : ∀ j : Fin 30,
      (timers j).count c =
        ((if j = k then ([] : List Nat) else timers j).count c) +
          (if j = k then (timers k).count c else 0) := by
    intro j
    by_cases h : j = k <;> simp [h]
  rw [Finset.sum_congr rfl (fun j _ => hcong j), Finset.sum_add_distrib]
  have hsingle : (∑ j : Fin 30, if j = k then (timers k).count c else 0) =
      (timers k).count c := by
    simp [Finset.sum_ite_eq']
  rw [hsingle]

theorem drain_inv (cells : Nat → Option Nat) (timers : Fin 30 → List Nat) (k : Fin 30)
    (h : Inv cells timers) :
    Inv ((timers k).foldl eraseCell cells)
      (fun j => if j = k then ([] : List Nat) else timers j) := by
  intro c
  rw [foldl_eraseCell]
  have h1 := h c
  have h2 := occ_clear timers k c
  by_cases hc : c ∈ timers k
  · have hck : 1 ≤ (timers k).count c := List.one_le_count_iff.mpr hc
    rw [if_pos hc]
    simp only [Option.isSome_none, Bool.false_eq_true, if_false]
    split at h1 <;> omega
  · have hck : (timers k).count c = 0 := by
      by_contra hne
      exact hc (List.count_pos_iff.mp (by omega))
    rw [if_neg hc]
    omega

/-- The only three shapes the context can take after one ship's
transition: untouched; one cell overwritten with a present value; or a
previously absent cell made present together with one ring append. -/
theorem shipStep_env_shape (d : Draws) (tick : Nat) (env : Env) (ship : Nat) :
    ((shipStep d tick env ship).1.cells = env.cells ∧
      (shipStep d tick env ship).1.timers = env.timers) ∨
    (∃ p v, env.cells p = some v ∧ ∃ v2,
      (shipStep d tick env ship).1.cells =
        (fun k => if k = p then some v2 else env.cells k) ∧
      (shipStep d tick env ship).1.timers = env.timers) ∨
    (∃ p, env.cells p = none ∧ ∃ v2 idx,
      (shipStep d tick env ship).1.cells =
        (fun k => if k = p then some v2 else env.cells k) ∧
      (shipStep d tick env ship).1.timers =
        (fun j => if j = idx then env.timers j ++ [p] else env.timers j)) := by
  unfold shipStep
  by_cases h3 : getbits ship STATE_SHIFT MASK_2BIT = DEAD
  · simp [h3]
  · rw [if_neg h3]
    by_cases h0 : getbits ship STATE_SHIFT MASK_2BIT = FLOATING
    · simp [h0]
    · rw [if_neg h0]
      by_cases h1 : getbits ship STATE_SHIFT MASK_2BIT = FISHING
      · rw [if_pos h1]
        unfold fishStep
        by_cases ht : (getbits ship TIMER_SHIFT MASK_2BIT + 255) % 256 > 0
        · rw [if_pos ht]
          simp
        · rw [if_neg ht]
          rcases hcell : env.cells (getbits ship POSITION_SHIFT MASK_34BIT)
            with _ | stored
          · right; right
            refine ⟨getbits ship POSITION_SHIFT MASK_34BIT, hcell,
              (consumeCell d.catchDraw d.fishDraw).2,
              ⟨(tick + d.ttlDraw) % 30, Nat.mod_lt _ (by omega)⟩, ?_, ?_⟩ <;>
              simp [hcell]
          · right; left
            refine ⟨getbits ship POSITION_SHIFT MASK_34BIT, stored, hcell,
              (consumeCell d.catchDraw stored).2, ?_, ?_⟩ <;>
              simp [hcell]
      · rw [if_neg h1]
        simp

theorem shipStep_env_inv (d : Draws) (tick : Nat) (env : Env) (ship : Nat)
    (h : Inv env.cells env.timers) :
    Inv (shipStep d tick env ship).1.cells (shipStep d tick env ship).1.timers := by
  rcases shipStep_env_shape d tick env ship with
    ⟨hc, ht⟩ | ⟨p, v, hp, v2, hc, ht⟩ | ⟨p, hp, v2, idx, hc, ht⟩
  · rw [hc, ht]; exact h
  · rw [hc, ht]
    intro c
    have h1 := h c
    by_cases hcp : c = p
    · subst hcp
      simp only [if_pos rfl]
      rw [hp] at h1
      simpa using h1
    · simp only [if_neg hcp]
      exact h1
  · rw [hc, ht]
    intro c
    rw [occ_append]
    have h1 := h c
    by_cases hcp : c = p
    · subst hcp
      rw [hp] at h1
      simp only [if_pos rfl]
      simpa using h1
    · simp only [if_neg hcp]
      simpa using h1

theorem shipStep_cells_isSome (d : Draws) (tick : Nat) (env : Env) (ship x : Nat)
    (h : (env.cells x).isSome = true) :
    ((shipStep d tick env ship).1.cells x).isSome = true := by
  rcases shipStep_env_shape d tick env ship with
    ⟨hc, _⟩ | ⟨p, v, hp, v2, hc, _⟩ | ⟨p, hp, v2, idx, hc, _⟩ <;> rw [hc]
  · exact h
  · by_cases hxp : x = p <;> simp [hxp, h]
  · by_cases hxp : x = p <;> simp [hxp, h]

theorem shipStep_timers_mem (d : Draws) (tick : Nat) (env : Env) (ship : Nat)
    (j : Fin 30) (c : Nat) (h : c ∈ env.timers j) :
    c ∈ (shipStep d tick env ship).1.timers j := by
  rcases shipStep_env_shape d tick env ship with
    ⟨_, ht⟩ | ⟨p, v, hp, v2, _, ht⟩ | ⟨p, hp, v2, idx, _, ht⟩ <;> rw [ht]
  · exact h
  · exact h
  · by_cases hj : j = idx
    · subst hj
      simp [h]
    · simp [hj, h]

theorem processShips_env_inv (o : Nat → Draws) (tick : Nat) :
    ∀ (ships : List Nat) (i : Nat) (env : Env), Inv env.cells env.timers →
      Inv (processShips o tick i env ships).1.cells
        (processShips o tick i env ships).1.timers := by
  intro ships
  induction ships with
  | nil => intro i env h; exact h
  | cons s rest ih =>
      intro i env h
      exact ih (i + 1) _ (shipStep_env_inv (o i) tick env s h)

theorem processShips_cells_isSome (o : Nat → Draws) (tick : Nat) :
    ∀ (ships : List Nat) (i : Nat) (env : Env) (x : Nat),
      (env.cells x).isSome = true →
      ((processShips o tick i env ships).1.cells x).isSome = true := by
  intro ships
  induction ships with
  | nil => intro i env x h; exact h
  | cons s rest ih =>
      intro i env x h
      exact ih (i + 1) _ x (shipStep_cells_isSome (o i) tick env s x h)

theorem processShips_timers_mem (o : Nat → Draws) (tick : Nat) :
    ∀ (ships : List Nat) (i : Nat) (env : Env) (j : Fin 30) (c : Nat),
      c ∈ env.timers j →
      c ∈ (processShips o tick i env ships).1.timers j := by
  intro ships
  induction ships with
  | nil => intro i env j c h; exact h
  | cons s rest ih =>
      intro i env j c h
      exact ih (i + 1) _ j c (shipStep_timers_mem (o i) tick env s j c h)

theorem tickStep_inv (o : Nat → Draws) (s : SimState)
    (h : Inv s.activeCells s.cellsTimers) :
    Inv (tickStep o s).activeCells (tickStep o s).cellsTimers := by
  exact processShips_env_inv o s.tick s.ships 0 _
    (drain_inv s.activeCells s.cellsTimers _ h)

end GrandFishing

namespace GrandFishing

theorem inv_mem_isSome (cells : Nat → Option Nat) (timers : Fin 30 → List Nat)
    (h : Inv cells timers) (idx : Fin 30) (c : Nat) (hc : c ∈ timers idx) :
    (cells c).isSome = true := by
  have h1 := h c
  have hcount : 1 ≤ (timers idx).count c := List.one_le_count_iff.mpr hc
  have hocc : (timers idx).count c ≤ occ timers c := by
    unfold occ
    exact @Finset.single_le_sum (Fin 30) ℕ _ (fun j => (timers j).count c)
      Finset.univ (fun j _ => Nat.zero_le _) idx (Finset.mem_univ idx)
  by_contra hno
  rw [if_neg hno] at h1
  omega

theorem inv_unique_slot (cells : Nat → Option Nat) (timers : Fin 30 → List Nat)
    (h : Inv cells timers) (idx k : Fin 30) (c : Nat) (hc : c ∈ timers idx)
    (hne : k ≠ idx) : c ∉ timers k := by
  intro hmem
  have h1 := h c
  have hsome := inv_mem_isSome cells timers h idx c hc
  rw [if_pos hsome] at h1
  have h2 : 1 ≤ (timers idx).count c := List.one_le_count_iff.mpr hc
  have h3 : 1 ≤ (timers k).count c := List.one_le_count_iff.mpr hmem
  have h4 : (timers k).count c + (timers idx).count c ≤ occ timers c := by
    unfold occ
    exact @Finset.add_le_sum (Fin 30) ℕ _ (fun j => (timers j).count c)
      Finset.univ k idx (fun j _ => Nat.zero_le _) (Finset.mem_univ k)
      (Finset.mem_univ idx) hne
  omega

theorem tickStep_keep (o : Nat → Draws) (s : SimState) (c : Nat) (idx : Fin 30)
    (hInv : Inv s.activeCells s.cellsTimers)
    (hne : (idx : Nat) ≠ s.tick % 30)
    (hc : c ∈ s.cellsTimers idx) :
    ((tickStep o s).activeCells c).isSome = true ∧
    c ∈ (tickStep o s).cellsTimers idx := by
  have hsome : (s.activeCells c).isSome = true :=
    inv_mem_isSome _ _ hInv idx c hc
  have hkne : (⟨s.tick % 30, Nat.mod_lt _ (by omega)⟩ : Fin 30) ≠ idx := by
    intro hcon
    exact hne (by rw [← hcon])
  have hnotk : c ∉ s.cellsTimers ⟨s.tick % 30, Nat.mod_lt _ (by omega)⟩ :=
    inv_unique_slot _ _ hInv idx _ c hc hkne
  constructor
  · refine processShips_cells_isSome o s.tick s.ships 0 _ c ?_
    show (((s.cellsTimers ⟨s.tick % 30, Nat.mod_lt _ (by omega)⟩).foldl eraseCell
      s.activeCells) c).isSome = true
    rw [foldl_eraseCell, if_neg hnotk]
    exact hsome
  · refine processShips_timers_mem o s.tick s.ships 0 _ idx c ?_
    show c ∈ (if idx = (⟨s.tick % 30, Nat.mod_lt _ (by omega)⟩ : Fin 30)
      then ([] : List Nat) else s.cellsTimers idx)
    rw [if_neg (fun hcon => hkne hcon.symm)]
    exact hc

theorem iterN_tick (O : Nat → Nat → Draws) (n : Nat) (s : SimState) :
    (iterN O n s).tick = s.tick + n := by
  induction n with
  | zero => rfl
  | succ n ih =>
      show (tickStep (O n) (iterN O n s)).tick = s.tick + (n + 1)
      have h : ∀ (o : Nat → Draws) (s2 : SimState), (tickStep o s2).tick = s2.tick + 1 :=
        fun _ _ => rfl
      rw [h, ih]
      omega

theorem iterN_inv (O : Nat → Nat → Draws) (n : Nat) (s : SimState)
    (h : Inv s.activeCells s.cellsTimers) :
    Inv (iterN O n s).activeCells (iterN O n s).cellsTimers := by
  induction n with
  | zero => exact h
  | succ n ih => exact tickStep_inv (O n) (iterN O n s) ih

/-- C6: from the program's initial state (empty active-cell map, empty
ring buffer), every reachable state keeps each cell in at most one
outstanding ring-buffer entry across the 30 slots; indeed the number of
outstanding entries for a cell is exactly 1 when the cell is present in
the Resource Field and 0 when it is absent, so a present (hence already
scheduled) cell is never scheduled a second time. -/
theorem ring_entry_unique (O : Nat → Nat → Draws) (ships : List Nat) (alive : Int)
    (n c : Nat) :
    occ (iterN O n (initialState ships alive)).cellsTimers c ≤ 1 ∧
    occ (iterN O n (initialState ships alive)).cellsTimers c =
      (if ((iterN O n (initialState ships alive)).activeCells c).isSome
       then 1 else 0) := by
  have h0 : Inv (initialState ships alive).activeCells
      (initialState ships alive).cellsTimers := by
    intro c2
    simp [initialState, occ]
  have h := iterN_inv O n _ h0 c
  refine ⟨?_, h⟩
  rw [h]
  split <;> omega

theorem iterN_keep (O : Nat → Nat → Draws) (s : SimState) (c k : Nat)
    (hk : k < 30) (hInv : Inv s.activeCells s.cellsTimers)
    (hc : c ∈ s.cellsTimers ⟨(s.tick + k) % 30, Nat.mod_lt _ (by omega)⟩) :
    ∀ m, m ≤ k →
      Inv (iterN O m s).activeCells (iterN O m s).cellsTimers ∧
      ((iterN O m s).activeCells c).isSome = true ∧
      c ∈ (iterN O m s).cellsTimers ⟨(s.tick + k) % 30, Nat.mod_lt _ (by omega)⟩ := by
  intro m
  induction m with
  | zero =>
      intro _
      exact ⟨hInv, inv_mem_isSome _ _ hInv _ c hc, hc⟩
  | succ m ih =>
      intro hm
      obtain ⟨ihInv, ihSome, ihMem⟩ := ih (by omega)
      have htick := iterN_tick O m s
      have hne : (((⟨(s.tick + k) % 30, Nat.mod_lt _ (by omega)⟩ : Fin 30)) : Nat) ≠
          (iterN O m s).tick % 30 := by
        rw [htick]
        show (s.tick + k) % 30 ≠ (s.tick + m) % 30
        omega
      have hkeep := tickStep_keep (O m) (iterN O m s) c _ ihInv hne ihMem
      exact ⟨tickStep_inv (O m) (iterN O m s) ihInv, hkeep.1, hkeep.2⟩

/-- C5: an entry for cell c sitting in ring slot (T+t) mod 30 at the
start of tick T+1 (i.e. scheduled during tick T with TTL t, drawn from
[15,30]) keeps the cell present in the Resource Field at the start of
every tick up to and including T+t, and the drain phase of tick T+t
erases it; the invariant hypothesis holds in every reachable state
(ring_entry_unique). -/
theorem expiry_exact_tick (O : Nat → Nat → Draws) (s : SimState) (T t c : Nat)
    (hInv : Inv s.activeCells s.cellsTimers)
    (h15 : 15 ≤ t) (h30 : t ≤ 30) (htick : s.tick = T + 1)
    (hc : c ∈ s.cellsTimers ⟨(T + t) % 30, Nat.mod_lt _ (by omega)⟩) :
    (∀ j, j < t → ((iterN O j s).activeCells c).isSome = true) ∧
    (iterN O (t - 1) s).tick = T + t ∧
    ((iterN O (t - 1) s).cellsTimers
        ⟨(iterN O (t - 1) s).tick % 30, Nat.mod_lt _ (by omega)⟩).foldl
      eraseCell (iterN O (t - 1) s).activeCells c = none := by
  have hk : t - 1 < 30 := by omega
  have hidx : (T + t) % 30 = (s.tick + (t - 1)) % 30 := by omega
  have hc2 : c ∈ s.cellsTimers ⟨(s.tick + (t - 1)) % 30, Nat.mod_lt _ (by omega)⟩ := by
    have hfe : (⟨(T + t) % 30, Nat.mod_lt _ (by omega)⟩ : Fin 30) =
        ⟨(s.tick + (t - 1)) % 30, Nat.mod_lt _ (by omega)⟩ := Fin.ext hidx
    rw [← hfe]
    exact hc
  have key := iterN_keep O s c (t - 1) hk hInv hc2
  have htickEnd : (iterN O (t - 1) s).tick = T + t := by
    rw [iterN_tick, htick]
    omega
  refine ⟨fun j hj => (key j (by omega)).2.1, htickEnd, ?_⟩
  obtain ⟨_, _, hmem⟩ := key (t - 1) le_rfl
  rw [foldl_eraseCell]
  have hfe2 : (⟨(iterN O (t - 1) s).tick % 30, Nat.mod_lt _ (by omega)⟩ : Fin 30) =
      ⟨(s.tick + (t - 1)) % 30, Nat.mod_lt _ (by omega)⟩ := by
    apply Fin.ext
    show (iterN O (t - 1) s).tick % 30 = (s.tick + (t - 1)) % 30
    rw [htickEnd, htick]
    congr 1
    omega
  rw [if_pos (by rw [hfe2]; exact hmem)]

end GrandFishing

namespace GrandFishing

/-! ### Fish-counter monotonicity and bound -/

theorem fishOf_afterCatchShip (d : Draws) (ty cf s2 : Nat) :
    fishOf (afterCatchShip d ty cf s2) = fishOf s2 := by
  unfold afterCatchShip
  split_ifs <;> simp

theorem fishOf_floatStep (t ship : Nat) : fishOf (floatStep t ship) = fishOf ship := by
  simp only [floatStep]
  split_ifs <;> simp

theorem fishOf_finishStep (alive : Int) (ship : Nat) :
    fishOf (finishStep alive ship).2 = fishOf ship := by
  simp only [finishStep]
  split_ifs <;> simp

theorem fishOf_fishStep (d : Draws) (tick : Nat) (env : Env) (ship : Nat)
    (h : fishOf ship ≤ WIN_FISH_COUNT) :
    fishOf ship ≤ fishOf (fishStep d tick env ship).2 ∧
    fishOf (fishStep d tick env ship).2 ≤ WIN_FISH_COUNT := by
  simp only [fishStep]
  by_cases ht : (getbits ship TIMER_SHIFT MASK_2BIT + 255) % 256 > 0
  · rw [if_pos ht]
    constructor <;> simp [h]
  · rw [if_neg ht]
    rcases hcell : env.cells (getbits ship POSITION_SHIFT MASK_34BIT) with _ | stored <;>
      simp only [hcell] <;>
      (rw [show getbits (setbits ship TIMER_SHIFT MASK_2BIT
          ((getbits ship TIMER_SHIFT MASK_2BIT + 255) % 256)) FISH_SHIFT MASK_14BIT
          = fishOf ship from fishOf_set_timer ship _]) <;>
      split_ifs with hw <;>
      simp only [fishOf_set_state, fishOf_set_fish, fishOf_afterCatchShip] <;>
      constructor <;>
      simp only [WIN_FISH_COUNT] at h hw ⊢ <;>
      omega

theorem shipStep_fish (d : Draws) (tick : Nat) (env : Env) (ship : Nat)
    (h : fishOf ship ≤ WIN_FISH_COUNT) :
    fishOf ship ≤ fishOf (shipStep d tick env ship).2 ∧
    fishOf (shipStep d tick env ship).2 ≤ WIN_FISH_COUNT := by
  simp only [shipStep]
  split_ifs with h3 h0 h1
  · exact ⟨le_refl _, h⟩
  · constructor <;> simp [fishOf_floatStep, h]
  · exact fishOf_fishStep d tick env ship h
  · constructor <;> simp [fishOf_finishStep, h]

theorem processShips_fish (o : Nat → Draws) (tick : Nat) :
    ∀ (ships : List Nat) (i : Nat) (env : Env),
      (∀ sh ∈ ships, fishOf sh ≤ WIN_FISH_COUNT) →
      List.Forall₂ (fun a b => fishOf a ≤ fishOf b)
        ships (processShips o tick i env ships).2 ∧
      (∀ sh ∈ (processShips o tick i env ships).2, fishOf sh ≤ WIN_FISH_COUNT) := by
  intro ships
  induction ships with
  | nil =>
      intro i env h
      exact ⟨List.Forall₂.nil, by simp [processShips]⟩
  | cons s rest ih =>
      intro i env h
      have hs := h s (List.mem_cons_self s rest)
      have hstep := shipStep_fish (o i) tick env s hs
      obtain ⟨ihF, ihB⟩ := ih (i + 1) ((shipStep (o i) tick env s).1)
        (fun sh hsh => h sh (List.mem_cons_of_mem _ hsh))
      simp only [processShips]
      constructor
      · exact List.Forall₂.cons hstep.1 ihF
      · intro sh hsh
        rcases List.mem_cons.mp hsh with hsh | hsh
        · rw [hsh]
          exact hstep.2
        · exact ihB sh hsh

theorem tickStep_fish (o : Nat → Draws) (s : SimState)
    (h : ∀ sh ∈ s.ships, fishOf sh ≤ WIN_FISH_COUNT) :
    List.Forall₂ (fun a b => fishOf a ≤ fishOf b) s.ships (tickStep o s).ships ∧
    (∀ sh ∈ (tickStep o s).ships, fishOf sh ≤ WIN_FISH_COUNT) :=
  processShips_fish o s.tick s.ships 0 _ h

/-- C7: from any start state where every ship's collected counter is
within the win threshold (as after initialization, where it is 0), the
counter of every ship is monotonically non-decreasing from each tick to
the next and stays at most the win threshold in every reachable
state. -/
theorem fish_monotone_bounded (O : Nat → Nat → Draws) (s0 : SimState)
    (h0 : ∀ sh ∈ s0.ships, fishOf sh ≤ WIN_FISH_COUNT) :
    ∀ n, (∀ sh ∈ (iterN O n s0).ships, fishOf sh ≤ WIN_FISH_COUNT) ∧
      List.Forall₂ (fun a b => fishOf a ≤ fishOf b)
        (iterN O n s0).ships (iterN O (n + 1) s0).ships := by
  intro n
  induction n with
  | zero => exact ⟨h0, (tickStep_fish (O 0) s0 h0).1⟩
  | succ n ih =>
      have hb := (tickStep_fish (O n) (iterN O n s0) ih.1).2
      exact ⟨hb, (tickStep_fish (O (n + 1)) (iterN O (n + 1) s0) hb).1⟩

/-- Witness for C7: a single freshly initialized ship (collected
counter 0). -/
theorem fish_monotone_bounded_witness :
    (∀ sh ∈ (initialState [initShip 2 1 0] 1).ships, fishOf sh ≤ WIN_FISH_COUNT) ∧
    (∀ n, (∀ sh ∈ (iterN (fun _ _ => ⟨1, 2, 15, 3, 4, 2⟩) n
        (initialState [initShip 2 1 0] 1)).ships, fishOf sh ≤ WIN_FISH_COUNT) ∧
      List.Forall₂ (fun a b => fishOf a ≤ fishOf b)
        (iterN (fun _ _ => ⟨1, 2, 15, 3, 4, 2⟩) n (initialState [initShip 2 1 0] 1)).ships
        (iterN (fun _ _ => ⟨1, 2, 15, 3, 4, 2⟩) (n + 1)
          (initialState [initShip 2 1 0] 1)).ships) :=
  ⟨by decide,
    fish_monotone_bounded (fun _ _ => ⟨1, 2, 15, 3, 4, 2⟩)
      (initialState [initShip 2 1 0] 1) (by decide)⟩

end GrandFishing

namespace GrandFishing

theorem inv_single (p v : Nat) (idx : Fin 30) :
    Inv (fun c => if c = p then some v else none)
      (fun j => if j = idx then [p] else []) := by
  intro c
  have e : occ (fun j => if j = idx then [p] else ([] : List Nat)) c =
      occ (fun _ => ([] : List Nat)) c + if c = p then 1 else 0 :=
    occ_append (fun _ => ([] : List Nat)) idx p c
  rw [e]
  have h0 : occ (fun _ => ([] : List Nat)) c = 0 := by simp [occ]
  rw [h0]
  by_cases hc : c = p <;> simp [hc]

/-- Witness for C5: cell 42 holds 5 fish, its expiry entry sits in slot
15 with TTL 15 scheduled during tick 0, and the current tick is 1. -/
theorem expiry_exact_tick_witness :
    Inv (⟨[], fun c => if c = 42 then some 5 else none,
        fun j => if j = (⟨15, by omega⟩ : Fin 30) then [42] else [], 0, 1⟩ :
        SimState).activeCells
      (⟨[], fun c => if c = 42 then some 5 else none,
        fun j => if j = (⟨15, by omega⟩ : Fin 30) then [42] else [], 0, 1⟩ :
        SimState).cellsTimers ∧
    (15 : Nat) ≤ 15 ∧ (15 : Nat) ≤ 30 ∧
    (⟨[], fun c => if c = 42 then some 5 else none,
        fun j => if j = (⟨15, by omega⟩ : Fin 30) then [42] else [], 0, 1⟩ :
        SimState).tick = 0 + 1 ∧
    42 ∈ (⟨[], fun c => if c = 42 then some 5 else none,
        fun j => if j = (⟨15, by omega⟩ : Fin 30) then [42] else [], 0, 1⟩ :
        SimState).cellsTimers ⟨(0 + 15) % 30, Nat.mod_lt _ (by omega)⟩ ∧
    ((∀ j, j < 15 →
        (((iterN (fun _ _ => ⟨1, 2, 15, 3, 4, 2⟩) j
          (⟨[], fun c => if c = 42 then some 5 else none,
            fun j => if j = (⟨15, by omega⟩ : Fin 30) then [42] else [], 0, 1⟩ :
            SimState)).activeCells 42).isSome = true)) ∧
      (iterN (fun _ _ => ⟨1, 2, 15, 3, 4, 2⟩) (15 - 1)
        (⟨[], fun c => if c = 42 then some 5 else none,
          fun j => if j = (⟨15, by omega⟩ : Fin 30) then [42] else [], 0, 1⟩ :
          SimState)).tick = 0 + 15 ∧
      ((iterN (fun _ _ => ⟨1, 2, 15, 3, 4, 2⟩) (15 - 1)
          (⟨[], fun c => if c = 42 then some 5 else none,
            fun j => if j = (⟨15, by omega⟩ : Fin 30) then [42] else [], 0, 1⟩ :
            SimState)).cellsTimers
          ⟨(iterN (fun _ _ => ⟨1, 2, 15, 3, 4, 2⟩) (15 - 1)
            (⟨[], fun c => if c = 42 then some 5 else none,
              fun j => if j = (⟨15, by omega⟩ : Fin 30) then [42] else [], 0, 1⟩ :
              SimState)).tick % 30, Nat.mod_lt _ (by omega)⟩).foldl
        eraseCell
        (iterN (fun _ _ => ⟨1, 2, 15, 3, 4, 2⟩) (15 - 1)
          (⟨[], fun c => if c = 42 then some 5 else none,
            fun j => if j = (⟨15, by omega⟩ : Fin 30) then [42] else [], 0, 1⟩ :
            SimState)).activeCells 42 = none) :=
  ⟨inv_single 42 5 ⟨15, by omega⟩, by decide, by decide, by decide, by decide,
    expiry_exact_tick (fun _ _ => ⟨1, 2, 15, 3, 4, 2⟩)
      (⟨[], fun c => if c = 42 then some 5 else none,
        fun j => if j = (⟨15, by omega⟩ : Fin 30) then [42] else [], 0, 1⟩ : SimState)
      0 15 42 (inv_single 42 5 ⟨15, by omega⟩) (by decide) (by decide) (by decide)
      (by decide)⟩

end GrandFishing
